import Mathlib

/-!
# Handle lifecycle and error translation of the `ora` connection layer

A shallow embedding of `conn.go` (the functions `newConnection`, `Close`,
`newStatement`, `logon`, `alloc`, `cerr`, `envErr`, `onOCIReturn`, `getErr`).

The foreign (OCI) layer is a deterministic oracle: its answer to a call may
depend on the whole history of calls made so far.  Every embedded function
threads the list of foreign calls issued so far, so that a theorem can speak
about which calls were made and in which order.  A Go run-time panic is an
explicit outcome, and so is running out of recursion fuel.
-/

namespace Ora

/-! ## Bytes, strings, errors -/

/-- A Go `string` or `[]byte`, as the sequence of its bytes. -/
abbrev Bytes := List Nat

/-- The bytes of an ASCII string literal of the source. -/
def bytesOf (s : String) : Bytes := s.toList.map Char.toNat

/-- The verb `%d` of `fmt` applied to an integer: an optional minus sign
followed by the decimal digits. -/
def fmtD (c : Int) : Bytes :=
  if c < 0 then 45 :: (Nat.toDigits 10 c.natAbs).map Char.toNat
  else (Nat.toDigits 10 c.toNat).map Char.toNat

/-- A Go `error` built by `errors.New` or `fmt.Errorf`: its text. -/
structure GoError where
  text : Bytes
deriving DecidableEq, Repr

/-- The conversion `int16(r)` of a `uintptr`: the low 16 bits, read as a
two's complement number. -/
def int16 (r : Nat) : Int :=
  if r % 65536 < 32768 then ((r % 65536 : Nat) : Int) else ((r % 65536 : Nat) : Int) - 65536

/-- The function `bytes.IndexByte`: the index of the first `c` in `b`, or `-1`. -/
def IndexByte : Bytes → Nat → Int
  | [], _ => -1
  | x :: xs, c =>
    if x = c then 0
    else if IndexByte xs c < 0 then -1 else IndexByte xs c + 1

/-- The slice expression `b[:i]`; `none` is the run-time panic
"slice bounds out of range". -/
def sliceTo (b : Bytes) (i : Int) : Option Bytes :=
  if 0 ≤ i ∧ i ≤ (b.length : Int) then some (b.take i.toNat) else none

/-- The length of the diagnostic buffer, `make([]byte, 3072)`. -/
def bufLen : Nat := 3072

/-- A zeroed buffer of `n` bytes after the foreign layer stored the bytes `w`
into it from offset 0. -/
def fill : Nat → Bytes → Bytes
  | 0, _ => []
  | n + 1, [] => 0 :: fill n []
  | n + 1, x :: xs => (x % 256) :: fill n xs

/-! ## Constants and handles declared outside `conn.go` -/

/-- The OCI constants `conn.go` uses; their declarations are in another file
of the package, so they are parameters of the embedding. -/
structure OCIConst where
  OCI_SUCCESS : Int
  OCI_ERROR : Int
  OCI_INVALID_HANDLE : Int
  OCI_DEFAULT : Int
  OCI_HTYPE_ENV : Int
  OCI_HTYPE_ERROR : Int
  OCI_HTYPE_SVCCTX : Int
  OCI_HTYPE_STMT : Int
deriving DecidableEq, Repr

/-- What the Go compiler and the use of the constants guarantee: the three
cases of the `switch` in `onOCIReturn` are distinct constants, and the two
diagnostic handle categories are distinct. -/
def OCIConst.WF (K : OCIConst) : Prop :=
  K.OCI_SUCCESS ≠ K.OCI_ERROR ∧ K.OCI_SUCCESS ≠ K.OCI_INVALID_HANDLE ∧
  K.OCI_ERROR ≠ K.OCI_INVALID_HANDLE ∧ K.OCI_HTYPE_ENV ≠ K.OCI_HTYPE_ERROR

instance (K : OCIConst) : Decidable K.WF := by
  unfold OCIConst.WF; infer_instance

/-- The values of the constants in Oracle's header `oci.h`. -/
def ociH : OCIConst :=
  { OCI_SUCCESS := 0, OCI_ERROR := -1, OCI_INVALID_HANDLE := -2, OCI_DEFAULT := 0,
    OCI_HTYPE_ENV := 1, OCI_HTYPE_ERROR := 2, OCI_HTYPE_SVCCTX := 3, OCI_HTYPE_STMT := 4 }

/-- Modelled from the spec: the type `ociHandle` is declared outside `src/`;
a NativeHandle has a category and an address that is initially null. -/
structure ociHandle where
  typ : Int
  ptr : Nat
deriving DecidableEq, Repr

/-- Modelled from the spec: the type `Transaction` is declared outside `src/`;
it only refers back to its connection. -/
structure Transaction where
deriving DecidableEq, Repr

/-- The struct `connStruct`; a nil pointer is `none`. -/
structure connStruct where
  env : Option ociHandle
  serv : Option ociHandle
  err : Option ociHandle
  tx : Option Transaction
  opened : Bool
deriving DecidableEq, Repr

/-- Modelled from the spec: the type `Statement` is declared outside `src/`;
the fields `newStatement` sets (`conn` is the receiver itself). -/
structure Statement where
  tx : Option Transaction
  ociHandle : Option ociHandle
deriving DecidableEq, Repr

/-! ## The foreign layer -/

/-- A call into the foreign layer, with the arguments that vary.  A buffer
passed as address and explicit length is recorded as the bytes it holds. -/
inductive Call where
  /-- the call `oci_OCIEnvCreate.Call(conn.env.ref(), mode, 0, 0, 0, 0, 0, 0)` -/
  | OCIEnvCreate (mode : Int)
  /-- the call `oci_OCIHandleAlloc.Call(parent, h.ref(), uintptr(typ), 0, 0)` -/
  | OCIHandleAlloc (parent : Nat) (typ : Int)
  /-- the call `oci_OCILogon.Call(env, err, ref(&serv.ptr), user, pass, host)`;
  `svc` is the service-context address before the call -/
  | OCILogon (env err svc : Nat) (user pass host : Bytes)
  /-- the call `oci_OCILogoff.Call(svc, err)` -/
  | OCILogoff (svc err : Nat)
  /-- the call `oci_OCIHandleFree.Call(h, uintptr(typ))` -/
  | OCIHandleFree (h : Nat) (typ : Int)
  /-- the call `oci_OCIErrorGet.Call(h, 1, 0, &errcode, buf, 3072, typ)` -/
  | OCIErrorGet (h : Nat) (typ : Int)
deriving DecidableEq, Repr

/-- What a foreign call gives back: its first return value, the address it
stored through the out-pointer it was given (if it stored one), the
diagnostic code it stored into `errcode`, and the bytes it stored into the
message buffer. -/
structure Resp where
  r : Nat
  out : Option Nat
  errcode : Int
  buf : Bytes
deriving DecidableEq, Repr

/-- A behaviour of the foreign layer: the answer to a call, given the calls
issued before it. -/
abbrev Oracle := List Call → Call → Resp

/-- How a function ends: it returns a value, it panics (nil pointer
dereference, slice bounds out of range), or the fuel that bounds the depth of
the error-translation calls is used up.  The list is the foreign calls issued
so far. -/
inductive Res (α : Type) where
  | ret (a : α) (t : List Call)
  | nilDeref (t : List Call)
  | sliceBounds (t : List Call)
  | outOfFuel
deriving DecidableEq, Repr

/-- Sequencing: a panic or lack of fuel ends the caller too. -/
def Res.andThen {α β : Type} (x : Res α) (f : α → List Call → Res β) : Res β :=
  match x with
  | .ret a t => f a t
  | .nilDeref t => .nilDeref t
  | .sliceBounds t => .sliceBounds t
  | .outOfFuel => .outOfFuel

/-! ## Error translation -/

/-- The tail of `getErr`: `errors.New(string(buf[:bytes.IndexByte(buf, 0)]))`. -/
def errOfBuf (buf : Bytes) (t : List Call) : Res (Option GoError) :=
  match sliceTo buf (IndexByte buf 0) with
  | none => .sliceBounds t
  | some s => .ret (some ⟨s⟩) t

mutual

/-- The method `cerr`: translate with the error-context handle as source. -/
def cerr (K : OCIConst) (O : Oracle) (conn : connStruct) :
    Nat → Nat → List Call → Res (Option GoError)
  | 0, _, _ => .outOfFuel
  | fuel + 1, r, t => onOCIReturn K O conn fuel (int16 r) K.OCI_HTYPE_ERROR t

/-- The method `onOCIReturn`: the decision table on the status code. -/
def onOCIReturn (K : OCIConst) (O : Oracle) (conn : connStruct) :
    Nat → Int → Int → List Call → Res (Option GoError)
  | 0, _, _, _ => .outOfFuel
  | fuel + 1, code, htyp, t =>
    if code = K.OCI_SUCCESS then .ret none t
    else if code = K.OCI_ERROR then getErr K O conn fuel htyp t
    else if code = K.OCI_INVALID_HANDLE then
      .ret (some ⟨bytesOf "OCI call returned OCI_INVALID_HANDLE"⟩) t
    else .ret (some ⟨bytesOf "OCI call returned - " ++ fmtD code⟩) t

/-- The method `getErr`: fetch the diagnostic text from the handle of the
category `htyp`, translate the status of the fetch with `cerr`, and build the
error from the buffer. -/
def getErr (K : OCIConst) (O : Oracle) (conn : connStruct) :
    Nat → Int → List Call → Res (Option GoError)
  | 0, _, _ => .outOfFuel
  | fuel + 1, htyp, t =>
    if htyp = K.OCI_HTYPE_ERROR then
      match conn.err with
      | none => .nilDeref t
      | some h =>
        let c := Call.OCIErrorGet h.ptr K.OCI_HTYPE_ERROR
        match cerr K O conn fuel (O t c).r (t ++ [c]) with
        | .ret (some e) t1 => .ret (some e) t1
        | .ret none t1 => errOfBuf (fill bufLen (O t c).buf) t1
        | .nilDeref t1 => .nilDeref t1
        | .sliceBounds t1 => .sliceBounds t1
        | .outOfFuel => .outOfFuel
    else
      match conn.env with
      | none => .nilDeref t
      | some h =>
        let c := Call.OCIErrorGet h.ptr K.OCI_HTYPE_ENV
        match cerr K O conn fuel (O t c).r (t ++ [c]) with
        | .ret (some e) t1 => .ret (some e) t1
        | .ret none t1 => errOfBuf (fill bufLen (O t c).buf) t1
        | .nilDeref t1 => .nilDeref t1
        | .sliceBounds t1 => .sliceBounds t1
        | .outOfFuel => .outOfFuel

end

/-- The method `envErr`: translate with the environment handle as source. -/
def envErr (K : OCIConst) (O : Oracle) (conn : connStruct) :
    Nat → Nat → List Call → Res (Option GoError)
  | 0, _, _ => .outOfFuel
  | fuel + 1, r, t => onOCIReturn K O conn fuel (int16 r) K.OCI_HTYPE_ENV t

/-! ## The connection -/

/-- The method `alloc`: allocate a handle of category `typ` through the
environment handle; a failure is translated with `envErr`. -/
def alloc (K : OCIConst) (O : Oracle) (conn : connStruct) (fuel : Nat) (typ : Int)
    (t : List Call) : Res (Option ociHandle × Option GoError) :=
  match conn.env with
  | none => .nilDeref t
  | some env =>
    let c := Call.OCIHandleAlloc env.ptr typ
    let h : ociHandle := { typ := typ, ptr := ((O t c).out).getD 0 }
    (envErr K O conn fuel (O t c).r (t ++ [c])).andThen fun err t1 =>
      match err with
      | some e => .ret (none, some e) t1
      | none => .ret (some h, none) t1

/-- The function `newConnection`: create the environment, allocate the
service-context handle, allocate the error-context handle. -/
def newConnection (K : OCIConst) (O : Oracle) (fuel : Nat) (t : List Call) :
    Res (Option connStruct × Option GoError) :=
  let c := Call.OCIEnvCreate K.OCI_DEFAULT
  let conn : connStruct :=
    { env := some { typ := K.OCI_HTYPE_ENV, ptr := ((O t c).out).getD 0 },
      serv := none, err := none, tx := none, opened := false }
  (envErr K O conn fuel (O t c).r (t ++ [c])).andThen fun err t1 =>
    match err with
    | some e => .ret (none, some e) t1
    | none =>
      (alloc K O conn fuel K.OCI_HTYPE_SVCCTX t1).andThen fun a t2 =>
        match a.2 with
        | some e => .ret (none, some e) t2
        | none =>
          (alloc K O { conn with serv := a.1 } fuel K.OCI_HTYPE_ERROR t2).andThen fun b t3 =>
            match b.2 with
            | some e => .ret (none, some e) t3
            | none => .ret (some { conn with serv := a.1, err := b.1 }, none) t3

/-- The two `oci_OCIHandleFree` calls that end `Close`. -/
def closeFrees (K : OCIConst) (conn : connStruct) (t : List Call) :
    Res (connStruct × Option GoError) :=
  match conn.serv with
  | none => .nilDeref t
  | some s =>
    match conn.env with
    | none => .nilDeref (t ++ [Call.OCIHandleFree s.ptr K.OCI_HTYPE_SVCCTX])
    | some v =>
      .ret (conn, none)
        (t ++ [Call.OCIHandleFree s.ptr K.OCI_HTYPE_SVCCTX,
               Call.OCIHandleFree v.ptr K.OCI_HTYPE_ENV])

/-- The method `Close`: log off when the session is open, then free the
service-context handle and the environment handle.  The statuses of the
foreign calls are not looked at.  The connection is returned as the call
leaves it. -/
def Close (K : OCIConst) (conn : connStruct) (t : List Call) :
    Res (connStruct × Option GoError) :=
  if conn.opened then
    match conn.serv, conn.err with
    | some s, some e =>
      closeFrees K { conn with opened := false } (t ++ [Call.OCILogoff s.ptr e.ptr])
    | _, _ => .nilDeref t
  else closeFrees K conn t

/-- The method `newStatement`: a statement whose handle is allocated with
`alloc`; the statement is returned next to the error in either case. -/
def newStatement (K : OCIConst) (O : Oracle) (conn : connStruct) (fuel : Nat)
    (t : List Call) : Res (Statement × Option GoError) :=
  (alloc K O conn fuel K.OCI_HTYPE_STMT t).andThen fun a t1 =>
    .ret ({ tx := conn.tx, ociHandle := a.1 }, a.2) t1

/-- The method `logon`: the login call may store a new service-context
address; its status is translated with `cerr`; on an error the connection is
closed, otherwise it is marked open.  The connection is returned as the call
leaves it. -/
def logon (K : OCIConst) (O : Oracle) (conn : connStruct) (fuel : Nat)
    (user pass host : Bytes) (t : List Call) : Res (connStruct × Option GoError) :=
  match conn.env, conn.err, conn.serv with
  | some v, some e, some s =>
    let c := Call.OCILogon v.ptr e.ptr s.ptr user pass host
    let conn1 : connStruct := { conn with serv := some { s with ptr := ((O t c).out).getD s.ptr } }
    (cerr K O conn1 fuel (O t c).r (t ++ [c])).andThen fun err t1 =>
      match err with
      | some e1 => (Close K conn1 t1).andThen fun r t2 => .ret (r.1, some e1) t2
      | none => .ret ({ conn1 with opened := true }, none) t1
  | _, _, _ => .nilDeref t

/-! ## Vocabulary of the statements -/

/-- The error of the case `OCI_INVALID_HANDLE` of the decision table. -/
def invalidHandleErr : GoError := ⟨bytesOf "OCI call returned OCI_INVALID_HANDLE"⟩

/-- The error of the default case of the decision table, for the status `c`. -/
def unknownStatusErr (c : Int) : GoError := ⟨bytesOf "OCI call returned - " ++ fmtD c⟩

/-- The diagnostic fetch `getErr` issues for the category `htyp`, when the
handle it reads is not nil. -/
def fetchCall (K : OCIConst) (conn : connStruct) (htyp : Int) : Option Call :=
  if htyp = K.OCI_HTYPE_ERROR then
    conn.err.map fun h => Call.OCIErrorGet h.ptr K.OCI_HTYPE_ERROR
  else conn.env.map fun h => Call.OCIErrorGet h.ptr K.OCI_HTYPE_ENV

/-- The call is a diagnostic fetch. -/
def isFetch : Call → Bool
  | .OCIErrorGet _ _ => true
  | _ => false

/-- The bytes of a buffer before its first null byte. -/
def beforeNull (b : Bytes) : Bytes := b.takeWhile fun x => x != 0

/-- The login call `logon` issues, when the three handles are not nil. -/
def logonCall (conn : connStruct) (user pass host : Bytes) : Option Call :=
  match conn.env, conn.err, conn.serv with
  | some v, some e, some s => some (Call.OCILogon v.ptr e.ptr s.ptr user pass host)
  | _, _, _ => none

/-! ## Foreign layers and connections used as concrete inputs -/

/-- A foreign layer on which every call succeeds; the address it stores is
100 plus the number of calls issued before. -/
def allSucceed : Oracle := fun t _ =>
  { r := 0, out := some (100 + t.length), errcode := 0, buf := [] }

/-- A foreign layer on which every call but the diagnostic fetch reports
`OCI_ERROR` (the 16 low bits of -1) and stores the address 7, and the fetch
succeeds and stores the text `msg` with the diagnostic code `code`. -/
def failWith (msg : Bytes) (code : Int) : Oracle := fun _ c =>
  match c with
  | .OCIErrorGet _ _ => { r := 0, out := none, errcode := code, buf := msg }
  | _ => { r := 65535, out := some 7, errcode := 0, buf := [] }

/-- A foreign layer on which every call reports `OCI_ERROR`, the diagnostic
fetch too. -/
def alwaysError : Oracle := fun _ _ =>
  { r := 65535, out := some 7, errcode := 0, buf := [] }

/-- A foreign layer on which every call reports `OCI_INVALID_HANDLE` (the 16 low
bits of -2) and stores nothing. -/
def alwaysInvalid : Oracle := fun _ _ =>
  { r := 65534, out := none, errcode := 0, buf := [] }

/-- A connection as `newConnection` builds it on `allSucceed`. -/
def conn0 : connStruct :=
  { env := some ⟨1, 100⟩, serv := some ⟨3, 101⟩, err := some ⟨2, 102⟩, tx := none,
    opened := false }

/-- A foreign layer whose diagnostic fetch succeeds and stores 3072 bytes `A`,
none of them null; every other call reports `OCI_ERROR`. -/
def failUnterminated : Oracle := failWith (List.replicate 3072 65) 0

/-- A foreign layer that reports `OCI_ERROR` while fewer than two calls were
issued, and `OCI_INVALID_HANDLE` afterwards. -/
def errorThenInvalid : Oracle := fun t _ =>
  if t.length < 2 then { r := 65535, out := none, errcode := 0, buf := [] }
  else { r := 65534, out := none, errcode := 0, buf := [] }

/-- The foreign layer answers the next `k` diagnostic fetches of a translation
for the category `htyp` with `OCI_ERROR` and the one after them with another
status, storing a null byte in the buffer when that status is `OCI_SUCCESS`;
the handles the fetches read are not nil. -/
def stopsAfter (K : OCIConst) (O : Oracle) (conn : connStruct) : Nat → Int → List Call → Bool
  | 0, htyp, t =>
    match fetchCall K conn htyp with
    | none => false
    | some c =>
      decide (int16 (O t c).r ≠ K.OCI_ERROR) &&
      decide (int16 (O t c).r = K.OCI_SUCCESS → 0 ∈ fill bufLen (O t c).buf)
  | k + 1, htyp, t =>
    match fetchCall K conn htyp with
    | none => false
    | some c =>
      decide (int16 (O t c).r = K.OCI_ERROR) &&
      stopsAfter K O conn k K.OCI_HTYPE_ERROR (t ++ [c])

/-- A foreign layer on which the first call succeeds and stores the address 100,
and every later call reports `OCI_ERROR` and stores nothing. -/
def createThenError : Oracle := fun t _ =>
  if t.length = 0 then { r := 0, out := some 100, errcode := 0, buf := [] }
  else { r := 65535, out := none, errcode := 0, buf := [] }

/-! ## Lemmas on buffers -/

/-- Without an occurrence of `c`, `IndexByte` answers `-1`. -/
theorem IndexByte_of_not_mem (c : Nat) : ∀ b : Bytes, c ∉ b → IndexByte b c = -1
  | [], _ => rfl
  | x :: xs, h => by
    have hx : x ≠ c := fun e => h (by simp [e])
    have hxs : c ∉ xs := fun e => h (by simp [e])
    simp [IndexByte, hx, IndexByte_of_not_mem c xs hxs]

/-- With an occurrence of `c`, `IndexByte` answers the number of bytes before the first one. -/
theorem IndexByte_of_mem (c : Nat) :
    ∀ b : Bytes, c ∈ b → IndexByte b c = ((b.takeWhile (fun x => x != c)).length : Int)
  | [], h => by simp at h
  | x :: xs, h => by
    by_cases hx : x = c
    · simp [IndexByte, hx]
    · have hxs : c ∈ xs := by
        rcases List.mem_cons.1 h with e | e
        · exact absurd e.symm hx
        · exact e
      have ih := IndexByte_of_mem c xs hxs
      have hnn : ¬ IndexByte xs c < 0 := by rw [ih]; omega
      simp [IndexByte, hx, hnn, ih, List.takeWhile_cons]

/-- Taking as many elements as the longest prefix satisfying `p` has gives that prefix. -/
theorem take_length_takeWhile (p : Nat → Bool) :
    ∀ b : Bytes, b.take (b.takeWhile p).length = b.takeWhile p
  | [] => rfl
  | x :: xs => by
    by_cases hx : p x
    · simp [List.takeWhile_cons, hx, take_length_takeWhile p xs]
    · simp [List.takeWhile_cons, hx]

/-- The longest prefix satisfying `p` is no longer than the list. -/
theorem length_takeWhile_le (p : Nat → Bool) :
    ∀ b : Bytes, (b.takeWhile p).length ≤ b.length
  | [] => by simp
  | x :: xs => by
    by_cases hx : p x
    · simpa [List.takeWhile_cons, hx] using length_takeWhile_le p xs
    · simp [List.takeWhile_cons, hx]

/-- The slice up to the first null byte, when there is one. -/
theorem sliceTo_IndexByte_of_mem (b : Bytes) (h : 0 ∈ b) :
    sliceTo b (IndexByte b 0) = some (b.takeWhile (fun x => x != 0)) := by
  have hle := length_takeWhile_le (fun x => x != 0) b
  rw [IndexByte_of_mem 0 b h]
  unfold sliceTo
  rw [if_pos ⟨by omega, by exact_mod_cast hle⟩]
  simp [take_length_takeWhile]

/-- Without a null byte the slice expression panics. -/
theorem sliceTo_IndexByte_of_not_mem (b : Bytes) (h : 0 ∉ b) :
    sliceTo b (IndexByte b 0) = none := by
  rw [IndexByte_of_not_mem 0 b h]
  simp [sliceTo]

/-- The tail of `getErr` on a buffer with a null byte. -/
theorem errOfBuf_of_mem (b : Bytes) (t : List Call) (h : 0 ∈ b) :
    errOfBuf b t = .ret (some ⟨b.takeWhile (fun x => x != 0)⟩) t := by
  simp [errOfBuf, sliceTo_IndexByte_of_mem b h]

/-- The tail of `getErr` on a buffer without a null byte. -/
theorem errOfBuf_of_not_mem (b : Bytes) (t : List Call) (h : 0 ∉ b) :
    errOfBuf b t = .sliceBounds t := by
  simp [errOfBuf, sliceTo_IndexByte_of_not_mem b h]

/-- The buffer keeps its length. -/
theorem fill_length : ∀ (n : Nat) (w : Bytes), (fill n w).length = n
  | 0, _ => by simp [fill]
  | n + 1, [] => by simp [fill, fill_length n []]
  | n + 1, x :: xs => by simp [fill, fill_length n xs]

/-- A text of non-null bytes shorter than the buffer is followed by a null byte. -/
theorem fill_short : ∀ (n : Nat) (w : Bytes), (∀ x ∈ w, x % 256 ≠ 0) → w.length < n →
    0 ∈ fill n w ∧ (fill n w).takeWhile (fun x => x != 0) = w.map (fun x => x % 256)
  | 0, _, _, h => by simp at h
  | n + 1, [], _, _ => by simp [fill]
  | n + 1, x :: xs, hw, hl => by
    have hx : x % 256 ≠ 0 := hw x (by simp)
    have ih := fill_short n xs (fun y hy => hw y (by simp [hy])) (by simpa using hl)
    simp [fill, List.takeWhile_cons, hx, ih.1, ih.2]

/-- Non-null bytes stored over the whole buffer leave no null byte. -/
theorem fill_full : ∀ (n : Nat) (w : Bytes), (∀ x ∈ w, x % 256 ≠ 0) → n ≤ w.length →
    0 ∉ fill n w
  | 0, _, _, _ => by simp [fill]
  | n + 1, [], _, h => by simp at h
  | n + 1, x :: xs, hw, hl => by
    have hx : x % 256 ≠ 0 := hw x (by simp)
    have ih := fill_full n xs (fun y hy => hw y (by simp [hy])) (by simpa using hl)
    simp [fill, ih, Ne.symm hx]

/-! ## Lemmas on the translation -/

/-- The case `OCI_SUCCESS` of the decision table. -/
theorem onOCIReturn_success (K : OCIConst) (O : Oracle) (conn : connStruct) (fuel : Nat)
    (htyp : Int) (t : List Call) :
    onOCIReturn K O conn (fuel + 1) K.OCI_SUCCESS htyp t = .ret none t := by
  simp [onOCIReturn]

/-- The case `OCI_ERROR` of the decision table. -/
theorem onOCIReturn_error (K : OCIConst) (hK : K.WF) (O : Oracle) (conn : connStruct)
    (fuel : Nat) (htyp : Int) (t : List Call) :
    onOCIReturn K O conn (fuel + 1) K.OCI_ERROR htyp t = getErr K O conn fuel htyp t := by
  simp [onOCIReturn, Ne.symm hK.1]

/-- The case `OCI_INVALID_HANDLE` of the decision table. -/
theorem onOCIReturn_invalid (K : OCIConst) (hK : K.WF) (O : Oracle) (conn : connStruct)
    (fuel : Nat) (htyp : Int) (t : List Call) :
    onOCIReturn K O conn (fuel + 1) K.OCI_INVALID_HANDLE htyp t =
      .ret (some invalidHandleErr) t := by
  simp [onOCIReturn, Ne.symm hK.2.1, Ne.symm hK.2.2.1, invalidHandleErr]

/-- The default case of the decision table. -/
theorem onOCIReturn_other (K : OCIConst) (O : Oracle) (conn : connStruct)
    (fuel : Nat) (c htyp : Int) (t : List Call) (h1 : c ≠ K.OCI_SUCCESS)
    (h2 : c ≠ K.OCI_ERROR) (h3 : c ≠ K.OCI_INVALID_HANDLE) :
    onOCIReturn K O conn (fuel + 1) c htyp t = .ret (some (unknownStatusErr c)) t := by
  simp [onOCIReturn, h1, h2, h3, unknownStatusErr]

/-- One step of `getErr` when the handle of the source exists. -/
theorem getErr_step (K : OCIConst) (O : Oracle) (conn : connStruct) (fuel : Nat)
    (htyp : Int) (t : List Call) (c : Call) (hc : fetchCall K conn htyp = some c) :
    getErr K O conn (fuel + 1) htyp t =
      (cerr K O conn fuel (O t c).r (t ++ [c])).andThen fun e t1 =>
        match e with
        | some e => .ret (some e) t1
        | none => errOfBuf (fill bufLen (O t c).buf) t1 := by
  unfold fetchCall at hc
  by_cases h : htyp = K.OCI_HTYPE_ERROR
  · rw [if_pos h] at hc
    cases he : conn.err with
    | none => simp [he] at hc
    | some x =>
      simp [he] at hc
      subst hc
      simp only [getErr, if_pos h, he]
      cases cerr K O conn fuel (O t (Call.OCIErrorGet x.ptr K.OCI_HTYPE_ERROR)).r
        (t ++ [Call.OCIErrorGet x.ptr K.OCI_HTYPE_ERROR]) with
      | ret a t1 => cases a <;> rfl
      | _ => rfl
  · rw [if_neg h] at hc
    cases he : conn.env with
    | none => simp [he] at hc
    | some x =>
      simp [he] at hc
      subst hc
      simp only [getErr, if_neg h, he]
      cases cerr K O conn fuel (O t (Call.OCIErrorGet x.ptr K.OCI_HTYPE_ENV)).r
        (t ++ [Call.OCIErrorGet x.ptr K.OCI_HTYPE_ENV]) with
      | ret a t1 => cases a <;> rfl
      | _ => rfl

/-- The handle `getErr` reads is nil: a nil pointer dereference before any call. -/
theorem getErr_nil (K : OCIConst) (O : Oracle) (conn : connStruct) (fuel : Nat)
    (htyp : Int) (t : List Call) (hc : fetchCall K conn htyp = none) :
    getErr K O conn (fuel + 1) htyp t = .nilDeref t := by
  unfold fetchCall at hc
  by_cases h : htyp = K.OCI_HTYPE_ERROR
  · rw [if_pos h] at hc
    cases he : conn.err with
    | none => simp [getErr, h, he]
    | some x => simp [he] at hc
  · rw [if_neg h] at hc
    cases he : conn.env with
    | none => simp [getErr, h, he]
    | some x => simp [he] at hc


/-- When the tail of `getErr` returns, it returns an error and issues no call. -/
theorem errOfBuf_ret (b : Bytes) (t : List Call) (x : Option GoError) (t1 : List Call)
    (h : errOfBuf b t = .ret x t1) : x ≠ none ∧ t1 = t := by
  unfold errOfBuf at h
  cases hs : sliceTo b (IndexByte b 0) with
  | none => simp [hs] at h
  | some s =>
    simp [hs] at h
    exact ⟨by rw [← h.1]; simp, h.2.symm⟩

/-- What a returning translation can have done: it only appended diagnostic
fetches, against the handle of its source or against the error-context
handle, and it returns a nil error only for the status `OCI_SUCCESS`. -/
theorem translate_ret (K : OCIConst) (O : Oracle) (conn : connStruct) :
    ∀ fuel : Nat,
      (∀ r t x t1, cerr K O conn fuel r t = .ret x t1 →
        (∃ l, t1 = t ++ l ∧ ∀ c ∈ l, fetchCall K conn K.OCI_HTYPE_ERROR = some c) ∧
        (x = none → int16 r = K.OCI_SUCCESS)) ∧
      (∀ code htyp t x t1, onOCIReturn K O conn fuel code htyp t = .ret x t1 →
        (∃ l, t1 = t ++ l ∧ ∀ c ∈ l, fetchCall K conn htyp = some c ∨
          fetchCall K conn K.OCI_HTYPE_ERROR = some c) ∧
        (x = none → code = K.OCI_SUCCESS)) ∧
      (∀ htyp t x t1, getErr K O conn fuel htyp t = .ret x t1 →
        (∃ l, t1 = t ++ l ∧ ∀ c ∈ l, fetchCall K conn htyp = some c ∨
          fetchCall K conn K.OCI_HTYPE_ERROR = some c) ∧ x ≠ none)
  | 0 => by
    refine ⟨?_, ?_, ?_⟩ <;> intros <;> simp_all [cerr, onOCIReturn, getErr]
  | fuel + 1 => by
    obtain ⟨ihc, iho, ihg⟩ := translate_ret K O conn fuel
    refine ⟨?_, ?_, ?_⟩
    · intro r t x t1 h
      simp only [cerr] at h
      obtain ⟨⟨l, hl, hf⟩, hx⟩ := iho _ _ _ _ _ h
      exact ⟨⟨l, hl, fun c hc => (hf c hc).elim id id⟩, hx⟩
    · intro code htyp t x t1 h
      simp only [onOCIReturn] at h
      by_cases h1 : code = K.OCI_SUCCESS
      · simp [h1] at h
        exact ⟨⟨[], by simp [h.2], by simp⟩, fun _ => h1⟩
      · rw [if_neg h1] at h
        by_cases h2 : code = K.OCI_ERROR
        · rw [if_pos h2] at h
          obtain ⟨hl, hx⟩ := ihg _ _ _ _ h
          exact ⟨hl, fun e => absurd e hx⟩
        · rw [if_neg h2] at h
          by_cases h3 : code = K.OCI_INVALID_HANDLE
          · simp [h3] at h
            exact ⟨⟨[], by simp [h.2], by simp⟩, fun e => by rw [← h.1] at e; simp at e⟩
          · simp [h3] at h
            exact ⟨⟨[], by simp [h.2], by simp⟩, fun e => by rw [← h.1] at e; simp at e⟩
    · intro htyp t x t1 h
      cases hc : fetchCall K conn htyp with
      | none => rw [getErr_nil K O conn fuel htyp t hc] at h; simp at h
      | some c =>
        rw [getErr_step K O conn fuel htyp t c hc] at h
        cases hr : cerr K O conn fuel (O t c).r (t ++ [c]) with
        | ret a t2 =>
          obtain ⟨⟨l, hl, hf⟩, _⟩ := ihc _ _ _ _ hr
          have hall : ∀ d ∈ c :: l, some c = some d ∨
              fetchCall K conn K.OCI_HTYPE_ERROR = some d := by
            intro d hd
            rcases List.mem_cons.1 hd with e1 | e1
            · rw [e1]; exact Or.inl rfl
            · exact Or.inr (hf d e1)
          rw [hr] at h
          simp only [Res.andThen] at h
          cases a with
          | some e =>
            simp at h
            exact ⟨⟨c :: l, by rw [← h.2, hl]; simp, hall⟩, by rw [← h.1]; simp⟩
          | none =>
            simp only at h
            obtain ⟨hx, ht⟩ := errOfBuf_ret _ _ _ _ h
            exact ⟨⟨c :: l, by rw [ht, hl]; simp, hall⟩, hx⟩
        | nilDeref t2 => rw [hr] at h; simp [Res.andThen] at h
        | sliceBounds t2 => rw [hr] at h; simp [Res.andThen] at h
        | outOfFuel => rw [hr] at h; simp [Res.andThen] at h

/-- The method `cerr` with fuel left. -/
theorem cerr_succ (K : OCIConst) (O : Oracle) (conn : connStruct) (fuel r : Nat)
    (t : List Call) :
    cerr K O conn (fuel + 1) r t = onOCIReturn K O conn fuel (int16 r) K.OCI_HTYPE_ERROR t := by
  simp [cerr]

/-- The method `envErr` with fuel left. -/
theorem envErr_succ (K : OCIConst) (O : Oracle) (conn : connStruct) (fuel r : Nat)
    (t : List Call) :
    envErr K O conn (fuel + 1) r t = onOCIReturn K O conn fuel (int16 r) K.OCI_HTYPE_ENV t := by
  simp [envErr]

/-- The fetch reports `OCI_SUCCESS`: the buffer is read. -/
theorem getErr_fetch_success (K : OCIConst) (O : Oracle) (conn : connStruct) (fuel : Nat)
    (htyp : Int) (t : List Call) (c : Call) (hc : fetchCall K conn htyp = some c)
    (hs : int16 (O t c).r = K.OCI_SUCCESS) :
    getErr K O conn (fuel + 3) htyp t = errOfBuf (fill bufLen (O t c).buf) (t ++ [c]) := by
  rw [getErr_step K O conn _ htyp t c hc, cerr_succ, hs, onOCIReturn_success]
  rfl

/-- The fetch reports `OCI_INVALID_HANDLE`. -/
theorem getErr_fetch_invalid (K : OCIConst) (hK : K.WF) (O : Oracle) (conn : connStruct)
    (fuel : Nat) (htyp : Int) (t : List Call) (c : Call)
    (hc : fetchCall K conn htyp = some c) (hs : int16 (O t c).r = K.OCI_INVALID_HANDLE) :
    getErr K O conn (fuel + 3) htyp t = .ret (some invalidHandleErr) (t ++ [c]) := by
  rw [getErr_step K O conn _ htyp t c hc, cerr_succ, hs, onOCIReturn_invalid K hK]
  rfl

/-- The fetch reports a status that is none of the three constants. -/
theorem getErr_fetch_other (K : OCIConst) (O : Oracle) (conn : connStruct)
    (fuel : Nat) (htyp : Int) (t : List Call) (c : Call)
    (hc : fetchCall K conn htyp = some c) (h1 : int16 (O t c).r ≠ K.OCI_SUCCESS)
    (h2 : int16 (O t c).r ≠ K.OCI_ERROR) (h3 : int16 (O t c).r ≠ K.OCI_INVALID_HANDLE) :
    getErr K O conn (fuel + 3) htyp t =
      .ret (some (unknownStatusErr (int16 (O t c).r))) (t ++ [c]) := by
  rw [getErr_step K O conn _ htyp t c hc, cerr_succ, onOCIReturn_other K O conn _ _ _ _ h1 h2 h3]
  rfl

/-- The fetch reports `OCI_ERROR`: `getErr` starts again on the error-context handle. -/
theorem getErr_fetch_error (K : OCIConst) (hK : K.WF) (O : Oracle) (conn : connStruct)
    (fuel : Nat) (htyp : Int) (t : List Call) (c : Call)
    (hc : fetchCall K conn htyp = some c) (hs : int16 (O t c).r = K.OCI_ERROR) :
    getErr K O conn (fuel + 3) htyp t = getErr K O conn fuel K.OCI_HTYPE_ERROR (t ++ [c]) := by
  rw [getErr_step K O conn _ htyp t c hc, cerr_succ, hs, onOCIReturn_error K hK]
  cases hg : getErr K O conn fuel K.OCI_HTYPE_ERROR (t ++ [c]) with
  | ret a t1 =>
    have := ((translate_ret K O conn fuel).2.2 _ _ _ _ hg).2
    cases a with
    | none => exact absurd rfl this
    | some e => rfl
  | _ => rfl

/-- The call `getErr` issues is a diagnostic fetch. -/
theorem isFetch_of_fetchCall (K : OCIConst) (conn : connStruct) (htyp : Int) (c : Call)
    (hc : fetchCall K conn htyp = some c) : isFetch c = true := by
  unfold fetchCall at hc
  split at hc
  · cases he : conn.err <;> simp [he] at hc; subst hc; rfl
  · cases he : conn.env <;> simp [he] at hc; subst hc; rfl

/-- After `k` fetches answered with `OCI_ERROR` and one answered otherwise, `getErr` returns. -/
theorem getErr_stops (K : OCIConst) (hK : K.WF) (O : Oracle) (conn : connStruct) (fuel : Nat) :
    ∀ (k : Nat) (htyp : Int) (t : List Call), stopsAfter K O conn k htyp t = true →
      ∃ e l, l.length = k + 1 ∧ (∀ c ∈ l, isFetch c = true) ∧
        getErr K O conn (3 * k + 3 + fuel) htyp t = .ret (some e) (t ++ l)
  | 0, htyp, t, h => by
    unfold stopsAfter at h
    cases hc : fetchCall K conn htyp with
    | none => simp [hc] at h
    | some c =>
      simp only [hc, Bool.and_eq_true, decide_eq_true_eq] at h
      obtain ⟨h2, hz⟩ := h
      have hf := isFetch_of_fetchCall K conn htyp c hc
      have e3 : 3 * 0 + 3 + fuel = fuel + 3 := by omega
      rw [e3]
      by_cases h1 : int16 (O t c).r = K.OCI_SUCCESS
      · rw [getErr_fetch_success K O conn fuel htyp t c hc h1, errOfBuf_of_mem _ _ (hz h1)]
        exact ⟨_, [c], rfl, by simpa using hf, rfl⟩
      · by_cases h3 : int16 (O t c).r = K.OCI_INVALID_HANDLE
        · exact ⟨_, [c], rfl, by simpa using hf,
            getErr_fetch_invalid K hK O conn fuel htyp t c hc h3⟩
        · exact ⟨_, [c], rfl, by simpa using hf,
            getErr_fetch_other K O conn fuel htyp t c hc h1 h2 h3⟩
  | k + 1, htyp, t, h => by
    unfold stopsAfter at h
    cases hc : fetchCall K conn htyp with
    | none => simp [hc] at h
    | some c =>
      simp only [hc, Bool.and_eq_true, decide_eq_true_eq] at h
      obtain ⟨h2, hrec⟩ := h
      obtain ⟨e, l, hl, hfl, hg⟩ := getErr_stops K hK O conn fuel k K.OCI_HTYPE_ERROR (t ++ [c]) hrec
      have e3 : 3 * (k + 1) + 3 + fuel = (3 * k + 3 + fuel) + 3 := by omega
      rw [e3, getErr_fetch_error K hK O conn _ htyp t c hc h2, hg]
      refine ⟨e, c :: l, by simp [hl], ?_, by simp⟩
      intro d hd
      rcases List.mem_cons.1 hd with e1 | e1
      · rw [e1]; exact isFetch_of_fetchCall K conn htyp c hc
      · exact hfl d e1

/-- On `alwaysError` the translation of `OCI_ERROR` uses up any fuel. -/
theorem alwaysError_loops : ∀ (fuel : Nat) (t : List Call),
    cerr ociH alwaysError conn0 fuel 65535 t = .outOfFuel ∧
    onOCIReturn ociH alwaysError conn0 fuel ociH.OCI_ERROR ociH.OCI_HTYPE_ERROR t = .outOfFuel ∧
    getErr ociH alwaysError conn0 fuel ociH.OCI_HTYPE_ERROR t = .outOfFuel
  | 0, t => by simp [cerr, onOCIReturn, getErr]
  | fuel + 1, t => by
    have hK : ociH.WF := by decide
    refine ⟨?_, ?_, ?_⟩
    · rw [cerr_succ]
      exact (alwaysError_loops fuel t).2.1
    · rw [onOCIReturn_error ociH hK]
      exact (alwaysError_loops fuel t).2.2
    · rw [getErr_step ociH alwaysError conn0 fuel ociH.OCI_HTYPE_ERROR t
        (Call.OCIErrorGet 102 2) (by decide)]
      have : (alwaysError t (Call.OCIErrorGet 102 2)).r = 65535 := rfl
      rw [this, (alwaysError_loops fuel _).1]
      rfl
/-! ## Lemmas on the connection -/

/-- The method `Close` on a connection whose three handles are allocated. -/
theorem Close_allocated (K : OCIConst) (conn : connStruct) (t : List Call)
    (v s e : ociHandle) (hv : conn.env = some v) (hs : conn.serv = some s)
    (he : conn.err = some e) :
    Close K conn t = .ret ({ conn with opened := false }, none)
      (t ++ (if conn.opened then [Call.OCILogoff s.ptr e.ptr] else []) ++
        [Call.OCIHandleFree s.ptr K.OCI_HTYPE_SVCCTX, Call.OCIHandleFree v.ptr K.OCI_HTYPE_ENV]) := by
  cases conn with
  | mk env serv err tx opened =>
    simp only at hv hs he
    subst hv hs he
    cases opened <;> simp [Close, closeFrees]

/-- What a returning `envErr` can have done. -/
theorem envErr_ret (K : OCIConst) (O : Oracle) (conn : connStruct) (fuel r : Nat)
    (t : List Call) (x : Option GoError) (t1 : List Call)
    (h : envErr K O conn fuel r t = .ret x t1) :
    (∃ l, t1 = t ++ l ∧ ∀ c ∈ l, fetchCall K conn K.OCI_HTYPE_ENV = some c ∨
      fetchCall K conn K.OCI_HTYPE_ERROR = some c) ∧
    (x = none → int16 r = K.OCI_SUCCESS) := by
  cases fuel with
  | zero => simp [envErr] at h
  | succ n =>
    rw [envErr_succ] at h
    exact (translate_ret K O conn n).2.1 _ _ _ _ _ h

/-- The method `envErr` on the status `OCI_SUCCESS`. -/
theorem envErr_success (K : OCIConst) (O : Oracle) (conn : connStruct) (fuel r : Nat)
    (t : List Call) (h : int16 r = K.OCI_SUCCESS) :
    envErr K O conn (fuel + 2) r t = .ret none t := by
  rw [envErr_succ, h, onOCIReturn_success]

/-- The method `cerr` on the status `OCI_SUCCESS`. -/
theorem cerr_success (K : OCIConst) (O : Oracle) (conn : connStruct) (fuel r : Nat)
    (t : List Call) (h : int16 r = K.OCI_SUCCESS) :
    cerr K O conn (fuel + 2) r t = .ret none t := by
  rw [cerr_succ, h, onOCIReturn_success]

/-- A failed translation makes `alloc` return its error and no handle. -/
theorem alloc_failure (K : OCIConst) (O : Oracle) (conn : connStruct) (fuel : Nat)
    (typ : Int) (t : List Call) (v : ociHandle) (hv : conn.env = some v)
    (hs : int16 (O t (Call.OCIHandleAlloc v.ptr typ)).r ≠ K.OCI_SUCCESS) :
    alloc K O conn fuel typ t =
      (envErr K O conn fuel (O t (Call.OCIHandleAlloc v.ptr typ)).r
        (t ++ [Call.OCIHandleAlloc v.ptr typ])).andThen fun e t1 => .ret (none, e) t1 := by
  simp only [alloc, hv]
  cases hr : envErr K O conn fuel (O t (Call.OCIHandleAlloc v.ptr typ)).r
      (t ++ [Call.OCIHandleAlloc v.ptr typ]) with
  | ret a t1 =>
    cases a with
    | none => exact absurd ((envErr_ret K O conn _ _ _ _ _ hr).2 rfl) hs
    | some e => rfl
  | _ => rfl

/-- A successful allocation returns the handle the foreign layer stored. -/
theorem alloc_success (K : OCIConst) (O : Oracle) (conn : connStruct) (fuel : Nat)
    (typ : Int) (t : List Call) (v : ociHandle) (hv : conn.env = some v)
    (hs : int16 (O t (Call.OCIHandleAlloc v.ptr typ)).r = K.OCI_SUCCESS) :
    alloc K O conn (fuel + 2) typ t =
      .ret (some ⟨typ, ((O t (Call.OCIHandleAlloc v.ptr typ)).out).getD 0⟩, none)
        (t ++ [Call.OCIHandleAlloc v.ptr typ]) := by
  simp only [alloc, hv]
  rw [envErr_success K O conn fuel _ _ hs]
  rfl

/-- What a returning `alloc` can have done. -/
theorem alloc_ret (K : OCIConst) (O : Oracle) (conn : connStruct) (fuel : Nat)
    (typ : Int) (t : List Call) (a : Option ociHandle × Option GoError) (t1 : List Call)
    (h : alloc K O conn fuel typ t = .ret a t1) :
    ∃ v, conn.env = some v ∧
      ((a.2 = none ∧ int16 (O t (Call.OCIHandleAlloc v.ptr typ)).r = K.OCI_SUCCESS ∧
        a.1 = some ⟨typ, ((O t (Call.OCIHandleAlloc v.ptr typ)).out).getD 0⟩) ∨
       (a.2 ≠ none ∧ a.1 = none)) ∧
      ∃ l, t1 = t ++ Call.OCIHandleAlloc v.ptr typ :: l ∧
        ∀ c ∈ l, fetchCall K conn K.OCI_HTYPE_ENV = some c ∨
          fetchCall K conn K.OCI_HTYPE_ERROR = some c := by
  cases hv : conn.env with
  | none => simp [alloc, hv] at h
  | some v =>
    refine ⟨v, rfl, ?_⟩
    simp only [alloc, hv] at h
    cases hr : envErr K O conn fuel (O t (Call.OCIHandleAlloc v.ptr typ)).r
        (t ++ [Call.OCIHandleAlloc v.ptr typ]) with
    | ret x t2 =>
      obtain ⟨⟨l, hl, hf⟩, hx⟩ := envErr_ret K O conn _ _ _ _ _ hr
      rw [hr] at h
      simp only [Res.andThen] at h
      cases x with
      | none =>
        simp at h
        refine ⟨Or.inl ⟨by rw [← h.1], hx rfl, by rw [← h.1]⟩, l, ?_, hf⟩
        rw [← h.2, hl]; simp
      | some e =>
        simp at h
        refine ⟨Or.inr ⟨by rw [← h.1]; simp, by rw [← h.1]⟩, l, ?_, hf⟩
        rw [← h.2, hl]; simp
    | nilDeref t2 => rw [hr] at h; simp [Res.andThen] at h
    | sliceBounds t2 => rw [hr] at h; simp [Res.andThen] at h
    | outOfFuel => rw [hr] at h; simp [Res.andThen] at h

/-- A connection `newConnection` returns holds its three handles and is not
open. -/
theorem newConnection_ret_some (K : OCIConst) (O : Oracle) (fuel : Nat) (t : List Call)
    (conn : connStruct) (x : Option GoError) (t1 : List Call)
    (h : newConnection K O fuel t = .ret (some conn, x) t1) :
    x = none ∧ conn.opened = false ∧ conn.tx = none ∧
    ∃ v s e, conn.env = some v ∧ conn.serv = some s ∧ conn.err = some e := by
  simp only [newConnection] at h
  cases h1 : envErr K O
      { env := some ⟨K.OCI_HTYPE_ENV, ((O t (Call.OCIEnvCreate K.OCI_DEFAULT)).out).getD 0⟩,
        serv := none, err := none, tx := none, opened := false } fuel
      (O t (Call.OCIEnvCreate K.OCI_DEFAULT)).r (t ++ [Call.OCIEnvCreate K.OCI_DEFAULT]) with
  | ret x1 t2 =>
    rw [h1] at h
    simp only [Res.andThen] at h
    cases x1 with
    | some e => simp at h
    | none =>
      simp only at h
      cases h2 : alloc K O
          { env := some ⟨K.OCI_HTYPE_ENV, ((O t (Call.OCIEnvCreate K.OCI_DEFAULT)).out).getD 0⟩,
            serv := none, err := none, tx := none, opened := false } fuel
          K.OCI_HTYPE_SVCCTX t2 with
      | ret a t3 =>
        rw [h2] at h
        simp only [Res.andThen] at h
        obtain ⟨v2, _, ha, _⟩ := alloc_ret K O _ _ _ _ _ _ h2
        rcases ha with ⟨ha2, _, ha1⟩ | ⟨ha2, _⟩
        · rw [ha2] at h
          simp only at h
          cases h3 : alloc K O
              { env := some ⟨K.OCI_HTYPE_ENV,
                  ((O t (Call.OCIEnvCreate K.OCI_DEFAULT)).out).getD 0⟩,
                serv := a.1, err := none, tx := none, opened := false } fuel
              K.OCI_HTYPE_ERROR t3 with
          | ret b t4 =>
            rw [h3] at h
            simp only [Res.andThen] at h
            obtain ⟨v3, _, hb, _⟩ := alloc_ret K O _ _ _ _ _ _ h3
            rcases hb with ⟨hb2, _, hb1⟩ | ⟨hb2, _⟩
            · rw [hb2] at h
              simp only [Res.ret.injEq, Prod.mk.injEq, Option.some.injEq] at h
              obtain ⟨⟨hc, hx⟩, _⟩ := h
              subst hc
              exact ⟨hx.symm, rfl, rfl, _, _, _, rfl, ha1, hb1⟩
            · cases hb' : b.2 with
              | none => exact absurd hb' hb2
              | some e => rw [hb'] at h; simp at h
          | nilDeref _ => rw [h3] at h; simp [Res.andThen] at h
          | sliceBounds _ => rw [h3] at h; simp [Res.andThen] at h
          | outOfFuel => rw [h3] at h; simp [Res.andThen] at h
        · cases ha' : a.2 with
          | none => exact absurd ha' ha2
          | some e => rw [ha'] at h; simp at h
      | nilDeref _ => rw [h2] at h; simp [Res.andThen] at h
      | sliceBounds _ => rw [h2] at h; simp [Res.andThen] at h
      | outOfFuel => rw [h2] at h; simp [Res.andThen] at h
  | nilDeref _ => rw [h1] at h; simp [Res.andThen] at h
  | sliceBounds _ => rw [h1] at h; simp [Res.andThen] at h
  | outOfFuel => rw [h1] at h; simp [Res.andThen] at h

/-- A successful login marks the connection open and issues the login call alone. -/
theorem logon_success (K : OCIConst) (O : Oracle) (conn : connStruct) (fuel : Nat)
    (user pass host : Bytes) (t : List Call) (v e s : ociHandle)
    (hv : conn.env = some v) (he : conn.err = some e) (hs : conn.serv = some s)
    (hst : int16 (O t (Call.OCILogon v.ptr e.ptr s.ptr user pass host)).r = K.OCI_SUCCESS) :
    logon K O conn (fuel + 2) user pass host t =
      .ret ({ conn with
                serv := some { s with ptr :=
                  ((O t (Call.OCILogon v.ptr e.ptr s.ptr user pass host)).out).getD s.ptr },
                opened := true }, none)
        (t ++ [Call.OCILogon v.ptr e.ptr s.ptr user pass host]) := by
  simp only [logon, hv, he, hs]
  rw [cerr_success K O _ fuel _ _ hst]
  rfl

/-- A failed login: `logon` closes the connection after the translation. -/
theorem logon_failure (K : OCIConst) (O : Oracle) (conn : connStruct) (fuel : Nat)
    (user pass host : Bytes) (t : List Call) (v e s : ociHandle)
    (hv : conn.env = some v) (he : conn.err = some e) (hs : conn.serv = some s)
    (x : Option GoError) (t1 : List Call)
    (hst : int16 (O t (Call.OCILogon v.ptr e.ptr s.ptr user pass host)).r ≠ K.OCI_SUCCESS)
    (htr : cerr K O { conn with serv := some { s with ptr :=
        ((O t (Call.OCILogon v.ptr e.ptr s.ptr user pass host)).out).getD s.ptr } } fuel
        (O t (Call.OCILogon v.ptr e.ptr s.ptr user pass host)).r
        (t ++ [Call.OCILogon v.ptr e.ptr s.ptr user pass host]) = .ret x t1) :
    ∃ e1 l, x = some e1 ∧
      t1 = t ++ [Call.OCILogon v.ptr e.ptr s.ptr user pass host] ++ l ∧
      (∀ d ∈ l, d = Call.OCIErrorGet e.ptr K.OCI_HTYPE_ERROR) ∧
      logon K O conn fuel user pass host t =
        .ret ({ conn with
                  serv := some { s with ptr :=
                    ((O t (Call.OCILogon v.ptr e.ptr s.ptr user pass host)).out).getD s.ptr },
                  opened := false }, some e1)
          (t1 ++ (if conn.opened then
              [Call.OCILogoff
                (((O t (Call.OCILogon v.ptr e.ptr s.ptr user pass host)).out).getD s.ptr)
                e.ptr] else []) ++
            [Call.OCIHandleFree
              (((O t (Call.OCILogon v.ptr e.ptr s.ptr user pass host)).out).getD s.ptr)
              K.OCI_HTYPE_SVCCTX,
             Call.OCIHandleFree v.ptr K.OCI_HTYPE_ENV]) := by
  cases conn with
  | mk env serv err tx opened =>
    simp only at hv he hs
    subst hv he hs
    obtain ⟨⟨l, hl, hf⟩, hx⟩ := (translate_ret K O _ fuel).1 _ _ _ _ htr
    cases x with
    | none => exact absurd (hx rfl) hst
    | some e1 =>
      refine ⟨e1, l, rfl, hl, ?_, ?_⟩
      · intro d hd
        have := hf d hd
        simp only [fetchCall, if_true, Option.map_some', Option.some.injEq] at this
        exact this.symm
      · simp only [logon]
        rw [htr]
        simp only [Res.andThen]
        rw [Close_allocated K _ t1 v
          { s with ptr :=
            ((O t (Call.OCILogon v.ptr e.ptr s.ptr user pass host)).out).getD s.ptr } e rfl rfl rfl]

/-- When the status is not `OCI_SUCCESS`, a caller that returns the error of
`envErr` ends as `envErr` ends. -/
theorem envErr_failure_andThen {β : Type} (K : OCIConst) (O : Oracle) (conn : connStruct)
    (fuel r : Nat) (t : List Call) (hs : int16 r ≠ K.OCI_SUCCESS)
    (f g : Option GoError → List Call → Res β)
    (hfg : ∀ e t1, f (some e) t1 = g (some e) t1) :
    (envErr K O conn fuel r t).andThen f = (envErr K O conn fuel r t).andThen g := by
  cases hr : envErr K O conn fuel r t with
  | ret x t1 =>
    cases x with
    | none => exact absurd ((envErr_ret K O conn _ _ _ _ _ hr).2 rfl) hs
    | some e => exact hfg e t1
  | _ => rfl

/-- Environment creation fails. -/
theorem newConnection_step1 (K : OCIConst) (O : Oracle) (fuel : Nat) (t : List Call)
    (hs : int16 (O t (Call.OCIEnvCreate K.OCI_DEFAULT)).r ≠ K.OCI_SUCCESS) :
    newConnection K O fuel t =
      (envErr K O
        { env := some ⟨K.OCI_HTYPE_ENV, ((O t (Call.OCIEnvCreate K.OCI_DEFAULT)).out).getD 0⟩,
          serv := none, err := none, tx := none, opened := false } fuel
        (O t (Call.OCIEnvCreate K.OCI_DEFAULT)).r
        (t ++ [Call.OCIEnvCreate K.OCI_DEFAULT])).andThen fun e t1 => .ret (none, e) t1 := by
  simp only [newConnection]
  exact envErr_failure_andThen K O _ _ _ _ hs _ _ (fun e t1 => rfl)

/-- The allocation of the service-context handle fails. -/
theorem newConnection_step2 (K : OCIConst) (O : Oracle) (fuel : Nat) (t : List Call)
    (c1 c2 : Call) (env : ociHandle)
    (h1 : c1 = Call.OCIEnvCreate K.OCI_DEFAULT)
    (henv : env = ⟨K.OCI_HTYPE_ENV, ((O t c1).out).getD 0⟩)
    (h2 : c2 = Call.OCIHandleAlloc env.ptr K.OCI_HTYPE_SVCCTX)
    (hs1 : int16 (O t c1).r = K.OCI_SUCCESS)
    (hs2 : int16 (O (t ++ [c1]) c2).r ≠ K.OCI_SUCCESS) :
    newConnection K O (fuel + 2) t =
      (envErr K O
        { env := some env, serv := none, err := none, tx := none, opened := false } (fuel + 2)
        (O (t ++ [c1]) c2).r (t ++ [c1, c2])).andThen fun e t1 => .ret (none, e) t1 := by
  subst h1 henv h2
  simp only [newConnection]
  rw [envErr_success K O _ fuel _ _ hs1]
  simp only [Res.andThen]
  rw [alloc_failure K O _ (fuel + 2) K.OCI_HTYPE_SVCCTX _ _ rfl hs2]
  simp only [List.append_assoc, List.singleton_append]
  cases hr : envErr K O
      { env := some ⟨K.OCI_HTYPE_ENV, ((O t (Call.OCIEnvCreate K.OCI_DEFAULT)).out).getD 0⟩,
        serv := none, err := none, tx := none, opened := false } (fuel + 2)
      (O (t ++ [Call.OCIEnvCreate K.OCI_DEFAULT])
        (Call.OCIHandleAlloc ((O t (Call.OCIEnvCreate K.OCI_DEFAULT)).out.getD 0)
          K.OCI_HTYPE_SVCCTX)).r
      (t ++ [Call.OCIEnvCreate K.OCI_DEFAULT,
        Call.OCIHandleAlloc ((O t (Call.OCIEnvCreate K.OCI_DEFAULT)).out.getD 0)
          K.OCI_HTYPE_SVCCTX]) with
  | ret x t1 =>
    cases x with
    | none => exact absurd ((envErr_ret K O _ _ _ _ _ _ hr).2 rfl) hs2
    | some e => rfl
  | _ => rfl

/-- The allocation of the error-context handle fails. -/
theorem newConnection_step3 (K : OCIConst) (O : Oracle) (fuel : Nat) (t : List Call)
    (c1 c2 c3 : Call) (env serv : ociHandle)
    (h1 : c1 = Call.OCIEnvCreate K.OCI_DEFAULT)
    (henv : env = ⟨K.OCI_HTYPE_ENV, ((O t c1).out).getD 0⟩)
    (h2 : c2 = Call.OCIHandleAlloc env.ptr K.OCI_HTYPE_SVCCTX)
    (hserv : serv = ⟨K.OCI_HTYPE_SVCCTX, ((O (t ++ [c1]) c2).out).getD 0⟩)
    (h3 : c3 = Call.OCIHandleAlloc env.ptr K.OCI_HTYPE_ERROR)
    (hs1 : int16 (O t c1).r = K.OCI_SUCCESS)
    (hs2 : int16 (O (t ++ [c1]) c2).r = K.OCI_SUCCESS)
    (hs3 : int16 (O (t ++ [c1, c2]) c3).r ≠ K.OCI_SUCCESS) :
    newConnection K O (fuel + 2) t =
      (envErr K O
        { env := some env, serv := some serv, err := none, tx := none, opened := false }
        (fuel + 2) (O (t ++ [c1, c2]) c3).r (t ++ [c1, c2, c3])).andThen
        fun e t1 => .ret (none, e) t1 := by
  subst h1 henv h2 hserv h3
  simp only [newConnection]
  rw [envErr_success K O _ fuel _ _ hs1]
  simp only [Res.andThen]
  rw [alloc_success K O _ fuel K.OCI_HTYPE_SVCCTX _ _ rfl hs2]
  simp only [List.append_assoc, List.singleton_append] at hs3 ⊢
  rw [alloc_failure K O _ (fuel + 2) K.OCI_HTYPE_ERROR _ _ rfl hs3]
  simp only [List.append_assoc, List.singleton_append, List.cons_append, List.nil_append]
  cases hr : envErr K O
      { env := some ⟨K.OCI_HTYPE_ENV, ((O t (Call.OCIEnvCreate K.OCI_DEFAULT)).out).getD 0⟩,
        serv := some ⟨K.OCI_HTYPE_SVCCTX,
          ((O (t ++ [Call.OCIEnvCreate K.OCI_DEFAULT])
            (Call.OCIHandleAlloc ((O t (Call.OCIEnvCreate K.OCI_DEFAULT)).out.getD 0)
              K.OCI_HTYPE_SVCCTX)).out).getD 0⟩,
        err := none, tx := none, opened := false } (fuel + 2)
      (O (t ++ [Call.OCIEnvCreate K.OCI_DEFAULT,
          Call.OCIHandleAlloc ((O t (Call.OCIEnvCreate K.OCI_DEFAULT)).out.getD 0)
            K.OCI_HTYPE_SVCCTX])
        (Call.OCIHandleAlloc ((O t (Call.OCIEnvCreate K.OCI_DEFAULT)).out.getD 0)
          K.OCI_HTYPE_ERROR)).r
      (t ++ [Call.OCIEnvCreate K.OCI_DEFAULT,
        Call.OCIHandleAlloc ((O t (Call.OCIEnvCreate K.OCI_DEFAULT)).out.getD 0)
          K.OCI_HTYPE_SVCCTX,
        Call.OCIHandleAlloc ((O t (Call.OCIEnvCreate K.OCI_DEFAULT)).out.getD 0)
          K.OCI_HTYPE_ERROR]) with
  | ret x t1 =>
    cases x with
    | none => exact absurd ((envErr_ret K O _ _ _ _ _ _ hr).2 rfl) hs3
    | some e => rfl
  | _ => rfl

/-- The three steps of `newConnection` succeed. -/
theorem newConnection_success (K : OCIConst) (O : Oracle) (fuel : Nat) (t : List Call)
    (c1 c2 c3 : Call) (env serv err : ociHandle)
    (h1 : c1 = Call.OCIEnvCreate K.OCI_DEFAULT)
    (henv : env = ⟨K.OCI_HTYPE_ENV, ((O t c1).out).getD 0⟩)
    (h2 : c2 = Call.OCIHandleAlloc env.ptr K.OCI_HTYPE_SVCCTX)
    (hserv : serv = ⟨K.OCI_HTYPE_SVCCTX, ((O (t ++ [c1]) c2).out).getD 0⟩)
    (h3 : c3 = Call.OCIHandleAlloc env.ptr K.OCI_HTYPE_ERROR)
    (herr : err = ⟨K.OCI_HTYPE_ERROR, ((O (t ++ [c1, c2]) c3).out).getD 0⟩)
    (hs1 : int16 (O t c1).r = K.OCI_SUCCESS)
    (hs2 : int16 (O (t ++ [c1]) c2).r = K.OCI_SUCCESS)
    (hs3 : int16 (O (t ++ [c1, c2]) c3).r = K.OCI_SUCCESS) :
    newConnection K O (fuel + 2) t =
      .ret (some { env := some env, serv := some serv, err := some err, tx := none,
                   opened := false }, none) (t ++ [c1, c2, c3]) := by
  subst h1 henv h2 hserv h3 herr
  simp only [newConnection]
  rw [envErr_success K O _ fuel _ _ hs1]
  simp only [Res.andThen]
  rw [alloc_success K O _ fuel K.OCI_HTYPE_SVCCTX _ _ rfl hs2]
  simp only [List.append_assoc, List.singleton_append] at hs3 ⊢
  rw [alloc_success K O _ fuel K.OCI_HTYPE_ERROR _ _ rfl hs3]
  simp

/-- The translation with the environment handle as source, on a connection
whose error-context handle is not allocated yet. -/
theorem envErr_env_source (K : OCIConst) (hK : K.WF) (O : Oracle) (conn : connStruct)
    (env : ociHandle) (r : Nat) (t0 : List Call) (henv : conn.env = some env)
    (herr : conn.err = none) :
    (∀ fuel x t1, envErr K O conn fuel r t0 = .ret x t1 → int16 r ≠ K.OCI_SUCCESS →
      ∃ e l, x = some e ∧ t1 = t0 ++ l ∧
        ∀ d ∈ l, d = Call.OCIErrorGet env.ptr K.OCI_HTYPE_ENV) ∧
    (∀ fuel, int16 r = K.OCI_INVALID_HANDLE →
      envErr K O conn (fuel + 2) r t0 = .ret (some invalidHandleErr) t0) ∧
    (∀ fuel, int16 r ≠ K.OCI_SUCCESS → int16 r ≠ K.OCI_ERROR →
      int16 r ≠ K.OCI_INVALID_HANDLE →
      envErr K O conn (fuel + 2) r t0 = .ret (some (unknownStatusErr (int16 r))) t0) ∧
    (∀ fuel, int16 r = K.OCI_ERROR →
      int16 (O t0 (Call.OCIErrorGet env.ptr K.OCI_HTYPE_ENV)).r = K.OCI_SUCCESS →
      0 ∈ fill bufLen (O t0 (Call.OCIErrorGet env.ptr K.OCI_HTYPE_ENV)).buf →
      envErr K O conn (fuel + 5) r t0 =
        .ret (some ⟨beforeNull (fill bufLen (O t0 (Call.OCIErrorGet env.ptr K.OCI_HTYPE_ENV)).buf)⟩)
          (t0 ++ [Call.OCIErrorGet env.ptr K.OCI_HTYPE_ENV])) := by
  have hfc : fetchCall K conn K.OCI_HTYPE_ENV =
      some (Call.OCIErrorGet env.ptr K.OCI_HTYPE_ENV) := by
    simp [fetchCall, hK.2.2.2, henv]
  have hfe : fetchCall K conn K.OCI_HTYPE_ERROR = none := by
    simp [fetchCall, herr]
  refine ⟨?_, ?_, ?_, ?_⟩
  · intro fuel x t1 h hs
    obtain ⟨⟨l, hl, hf⟩, hx⟩ := envErr_ret K O conn fuel r t0 x t1 h
    cases x with
    | none => exact absurd (hx rfl) hs
    | some e =>
      refine ⟨e, l, rfl, hl, ?_⟩
      intro d hd
      rcases hf d hd with h1 | h1
      · rw [hfc] at h1; exact (Option.some.inj h1).symm
      · rw [hfe] at h1; simp at h1
  · intro fuel h
    rw [envErr_succ, h, onOCIReturn_invalid K hK]
  · intro fuel h1 h2 h3
    rw [envErr_succ, onOCIReturn_other K O conn _ _ _ _ h1 h2 h3]
  · intro fuel h hs hz
    rw [envErr_succ, h, onOCIReturn_error K hK,
      getErr_fetch_success K O conn fuel K.OCI_HTYPE_ENV t0 _ hfc hs, errOfBuf_of_mem _ _ hz]
    rfl

/-- On a connection whose error-context handle is allocated, a foreign layer that
answers every diagnostic fetch with `OCI_ERROR` makes the translation of
`OCI_ERROR` with the error-context handle use up any fuel. -/
theorem error_loop (K : OCIConst) (hK : K.WF) (O : Oracle) (conn : connStruct)
    (e : ociHandle) (he : conn.err = some e)
    (hO : ∀ t d, isFetch d = true → int16 (O t d).r = K.OCI_ERROR) :
    ∀ (fuel : Nat) (t : List Call),
      (∀ r, int16 r = K.OCI_ERROR → cerr K O conn fuel r t = .outOfFuel) ∧
      onOCIReturn K O conn fuel K.OCI_ERROR K.OCI_HTYPE_ERROR t = .outOfFuel ∧
      getErr K O conn fuel K.OCI_HTYPE_ERROR t = .outOfFuel
  | 0, t => by simp [cerr, onOCIReturn, getErr]
  | fuel + 1, t => by
    have hfc : fetchCall K conn K.OCI_HTYPE_ERROR =
        some (Call.OCIErrorGet e.ptr K.OCI_HTYPE_ERROR) := by
      simp [fetchCall, he]
    refine ⟨?_, ?_, ?_⟩
    · intro r hr
      rw [cerr_succ, hr]
      exact (error_loop K hK O conn e he hO fuel t).2.1
    · rw [onOCIReturn_error K hK]
      exact (error_loop K hK O conn e he hO fuel t).2.2
    · rw [getErr_step K O conn fuel K.OCI_HTYPE_ERROR t _ hfc,
        (error_loop K hK O conn e he hO fuel _).1 _
          (hO t (Call.OCIErrorGet e.ptr K.OCI_HTYPE_ERROR) rfl)]
      rfl

/-- The same for either category, when the handle of the category is allocated
too. -/
theorem error_loop_any (K : OCIConst) (hK : K.WF) (O : Oracle) (conn : connStruct)
    (e : ociHandle) (htyp : Int) (c : Call) (he : conn.err = some e)
    (hc : fetchCall K conn htyp = some c)
    (hO : ∀ t d, isFetch d = true → int16 (O t d).r = K.OCI_ERROR)
    (fuel : Nat) (t : List Call) :
    onOCIReturn K O conn fuel K.OCI_ERROR htyp t = .outOfFuel := by
  cases fuel with
  | zero => simp [onOCIReturn]
  | succ n =>
    rw [onOCIReturn_error K hK]
    cases n with
    | zero => simp [getErr]
    | succ m =>
      rw [getErr_step K O conn m htyp t c hc,
        (error_loop K hK O conn e he hO m _).1 _
          (hO t c (isFetch_of_fetchCall K conn htyp c hc))]
      rfl

/-- The steps of `newConnection`, relative to the translation.  It creates the
environment (`c1`), allocates the service-context handle (`c2`), then the
error-context handle (`c3`).  At the first of the three whose status is not
`OCI_SUCCESS` it ends as the translation of that status by `envErr` ends: it
returns no connection and the error of the translation when the translation
returns, and it panics when the translation panics.  When the three statuses are
`OCI_SUCCESS` it returns the connection holding the three handles, with
`opened == false`, and no error.  The translation by `envErr`, on a connection
without error-context handle: when it returns for a status other than
`OCI_SUCCESS` it returns an error and has issued only diagnostic fetches against
the environment handle; it returns the error of the decision table for a status
other than `OCI_SUCCESS` and `OCI_ERROR`; and for `OCI_ERROR`, when the fetch
against the environment handle succeeds and stores a null-terminated text, it
returns the error with exactly that text. -/
theorem newConnection_stops_at_first_failure (K : OCIConst) (hK : K.WF) (O : Oracle)
    (t : List Call) (c1 c2 c3 : Call) (env serv err : ociHandle)
    (h1 : c1 = Call.OCIEnvCreate K.OCI_DEFAULT)
    (henv : env = ⟨K.OCI_HTYPE_ENV, ((O t c1).out).getD 0⟩)
    (h2 : c2 = Call.OCIHandleAlloc env.ptr K.OCI_HTYPE_SVCCTX)
    (hserv : serv = ⟨K.OCI_HTYPE_SVCCTX, ((O (t ++ [c1]) c2).out).getD 0⟩)
    (h3 : c3 = Call.OCIHandleAlloc env.ptr K.OCI_HTYPE_ERROR)
    (herr : err = ⟨K.OCI_HTYPE_ERROR, ((O (t ++ [c1, c2]) c3).out).getD 0⟩) :
    (int16 (O t c1).r ≠ K.OCI_SUCCESS → ∀ fuel,
      newConnection K O fuel t =
        (envErr K O { env := some env, serv := none, err := none, tx := none, opened := false }
          fuel (O t c1).r (t ++ [c1])).andThen fun e t1 => .ret (none, e) t1) ∧
    (int16 (O t c1).r = K.OCI_SUCCESS → int16 (O (t ++ [c1]) c2).r ≠ K.OCI_SUCCESS → ∀ fuel,
      newConnection K O (fuel + 2) t =
        (envErr K O { env := some env, serv := none, err := none, tx := none, opened := false }
          (fuel + 2) (O (t ++ [c1]) c2).r (t ++ [c1, c2])).andThen
          fun e t1 => .ret (none, e) t1) ∧
    (int16 (O t c1).r = K.OCI_SUCCESS → int16 (O (t ++ [c1]) c2).r = K.OCI_SUCCESS →
      int16 (O (t ++ [c1, c2]) c3).r ≠ K.OCI_SUCCESS → ∀ fuel,
      newConnection K O (fuel + 2) t =
        (envErr K O
          { env := some env, serv := some serv, err := none, tx := none, opened := false }
          (fuel + 2) (O (t ++ [c1, c2]) c3).r (t ++ [c1, c2, c3])).andThen
          fun e t1 => .ret (none, e) t1) ∧
    (int16 (O t c1).r = K.OCI_SUCCESS → int16 (O (t ++ [c1]) c2).r = K.OCI_SUCCESS →
      int16 (O (t ++ [c1, c2]) c3).r = K.OCI_SUCCESS → ∀ fuel,
      newConnection K O (fuel + 2) t =
        .ret (some { env := some env, serv := some serv, err := some err, tx := none,
                     opened := false }, none) (t ++ [c1, c2, c3])) ∧
    (∀ (conn : connStruct) (r : Nat) (t0 : List Call), conn.env = some env → conn.err = none →
      (∀ fuel x t1, envErr K O conn fuel r t0 = .ret x t1 → int16 r ≠ K.OCI_SUCCESS →
        ∃ e l, x = some e ∧ t1 = t0 ++ l ∧
          ∀ d ∈ l, d = Call.OCIErrorGet env.ptr K.OCI_HTYPE_ENV) ∧
      (∀ fuel, int16 r = K.OCI_INVALID_HANDLE →
        envErr K O conn (fuel + 2) r t0 = .ret (some invalidHandleErr) t0) ∧
      (∀ fuel, int16 r ≠ K.OCI_SUCCESS → int16 r ≠ K.OCI_ERROR →
        int16 r ≠ K.OCI_INVALID_HANDLE →
        envErr K O conn (fuel + 2) r t0 = .ret (some (unknownStatusErr (int16 r))) t0) ∧
      (∀ fuel, int16 r = K.OCI_ERROR →
        int16 (O t0 (Call.OCIErrorGet env.ptr K.OCI_HTYPE_ENV)).r = K.OCI_SUCCESS →
        0 ∈ fill bufLen (O t0 (Call.OCIErrorGet env.ptr K.OCI_HTYPE_ENV)).buf →
        envErr K O conn (fuel + 5) r t0 =
          .ret (some ⟨beforeNull
              (fill bufLen (O t0 (Call.OCIErrorGet env.ptr K.OCI_HTYPE_ENV)).buf)⟩)
            (t0 ++ [Call.OCIErrorGet env.ptr K.OCI_HTYPE_ENV]))) := by
  refine ⟨?_, ?_, ?_, ?_, ?_⟩
  · intro hs fuel
    subst h1 henv
    exact newConnection_step1 K O fuel t hs
  · intro hs1 hs2 fuel
    exact newConnection_step2 K O fuel t c1 c2 env h1 henv h2 hs1 hs2
  · intro hs1 hs2 hs3 fuel
    exact newConnection_step3 K O fuel t c1 c2 c3 env serv h1 henv h2 hserv h3 hs1 hs2 hs3
  · intro hs1 hs2 hs3 fuel
    exact newConnection_success K O fuel t c1 c2 c3 env serv err h1 henv h2 hserv h3 herr
      hs1 hs2 hs3
  · intro conn r t0 he hn
    exact envErr_env_source K hK O conn env r t0 he hn

/-- The runs of `newConnection` on a foreign layer whose environment creation
reports `OCI_ERROR` with the diagnostic text `OCIEnvCreate failed`, and on the
foreign layer `allSucceed`. -/
theorem newConnection_stops_at_first_failure_example :
    newConnection ociH (failWith (bytesOf "OCIEnvCreate failed") 1) 5 [] =
      .ret (none, some ⟨bytesOf "OCIEnvCreate failed"⟩)
        [Call.OCIEnvCreate 0, Call.OCIErrorGet 7 1] ∧
    newConnection ociH allSucceed 2 [] =
      .ret (some conn0, none)
        [Call.OCIEnvCreate 0, Call.OCIHandleAlloc 100 3, Call.OCIHandleAlloc 100 2] := by
  have hf := fill_short bufLen (bytesOf "OCIEnvCreate failed") (by decide) (by decide)
  have h := newConnection_stops_at_first_failure ociH (by decide)
    (failWith (bytesOf "OCIEnvCreate failed") 1) [] (Call.OCIEnvCreate 0)
    (Call.OCIHandleAlloc 7 3) (Call.OCIHandleAlloc 7 2) ⟨1, 7⟩ ⟨3, 7⟩ ⟨2, 7⟩
    rfl rfl rfl rfl rfl rfl
  have g := newConnection_stops_at_first_failure ociH (by decide) allSucceed []
    (Call.OCIEnvCreate 0) (Call.OCIHandleAlloc 100 3) (Call.OCIHandleAlloc 100 2)
    ⟨1, 100⟩ ⟨3, 101⟩ ⟨2, 102⟩ rfl rfl rfl rfl rfl rfl
  refine ⟨?_, g.2.2.2.1 (by decide) (by decide) (by decide) 0⟩
  have e1 := h.1 (by decide) 5
  have e2 := (h.2.2.2.2
    { env := some ⟨1, 7⟩, serv := none, err := none, tx := none, opened := false }
    (failWith (bytesOf "OCIEnvCreate failed") 1 [] (Call.OCIEnvCreate 0)).r
    ([] ++ [Call.OCIEnvCreate 0]) rfl rfl).2.2.2 0 (by decide) (by decide) hf.1
  rw [e1, e2]
  have e : beforeNull (fill bufLen (bytesOf "OCIEnvCreate failed")) =
      bytesOf "OCIEnvCreate failed" := by
    show (fill bufLen (bytesOf "OCIEnvCreate failed")).takeWhile _ = _
    rw [hf.2]; decide
  show (Res.ret (none, some (GoError.mk (beforeNull (fill bufLen
      (bytesOf "OCIEnvCreate failed"))))) [Call.OCIEnvCreate 0, Call.OCIErrorGet 7 1] :
      Res (Option connStruct × Option GoError)) = _
  rw [e]

/-! ## The claims -/

/-- Claim C1.  For every status code `c`, either handle category `htyp`, every
connection and every foreign layer, `onOCIReturn` returns no error when `c` is
`OCI_SUCCESS`, the error with the fixed text `OCI call returned OCI_INVALID_HANDLE`
when `c` is `OCI_INVALID_HANDLE`, and the error whose text is `OCI call returned - `
followed by the decimal rendering of `c` when `c` is none of the three constants.
In the three cases the list of foreign calls is left as it was (no diagnostic
fetch is issued) and the result does not mention the foreign layer. -/
theorem onOCIReturn_decision_table (K : OCIConst) (hK : K.WF) (O : Oracle)
    (conn : connStruct) (fuel : Nat) (c htyp : Int) (t : List Call) :
    (c = K.OCI_SUCCESS → onOCIReturn K O conn (fuel + 1) c htyp t = .ret none t) ∧
    (c = K.OCI_INVALID_HANDLE →
      onOCIReturn K O conn (fuel + 1) c htyp t =
        .ret (some ⟨bytesOf "OCI call returned OCI_INVALID_HANDLE"⟩) t) ∧
    (c ≠ K.OCI_SUCCESS → c ≠ K.OCI_ERROR → c ≠ K.OCI_INVALID_HANDLE →
      onOCIReturn K O conn (fuel + 1) c htyp t =
        .ret (some ⟨bytesOf "OCI call returned - " ++ fmtD c⟩) t) := by
  refine ⟨?_, ?_, ?_⟩
  · intro h; rw [h]; exact onOCIReturn_success K O conn fuel htyp t
  · intro h; rw [h]; exact onOCIReturn_invalid K hK O conn fuel htyp t
  · intro h1 h2 h3; exact onOCIReturn_other K O conn fuel c htyp t h1 h2 h3

/-- Claim C1 at the status 99 of the header constants: the text is
`OCI call returned - 99` and no call is issued. -/
theorem onOCIReturn_decision_table_witness :
    ociH.WF ∧ fmtD 99 = bytesOf "99" ∧
    onOCIReturn ociH alwaysError conn0 1 99 ociH.OCI_HTYPE_ERROR [] =
      .ret (some ⟨bytesOf "OCI call returned - 99"⟩) [] :=
  ⟨by decide, by decide,
    (onOCIReturn_decision_table ociH (by decide) alwaysError conn0 0 99
      ociH.OCI_HTYPE_ERROR []).2.2 (by decide) (by decide) (by decide)⟩

/-- Claim C2.  When the status is `OCI_ERROR`, the diagnostic fetch `c` of the
category reports `OCI_SUCCESS` and the 3072-byte buffer holds a null byte, the
error `getErr` and `onOCIReturn` return has as text exactly the bytes of the buffer
before its first null byte, after that one fetch; and the result is the same on
every foreign layer that differs only in the diagnostic code it stores. -/
theorem getErr_text_before_null (K : OCIConst) (hK : K.WF) (O : Oracle) (conn : connStruct)
    (fuel : Nat) (htyp : Int) (t : List Call) (c : Call)
    (hc : fetchCall K conn htyp = some c) (hs : int16 (O t c).r = K.OCI_SUCCESS)
    (hz : 0 ∈ fill bufLen (O t c).buf) :
    (fill bufLen (O t c).buf).length = 3072 ∧
    getErr K O conn (fuel + 3) htyp t =
      .ret (some ⟨beforeNull (fill bufLen (O t c).buf)⟩) (t ++ [c]) ∧
    onOCIReturn K O conn (fuel + 4) K.OCI_ERROR htyp t =
      .ret (some ⟨beforeNull (fill bufLen (O t c).buf)⟩) (t ++ [c]) ∧
    ∀ code : List Call → Call → Int,
      onOCIReturn K (fun t1 c1 => { O t1 c1 with errcode := code t1 c1 }) conn (fuel + 4)
        K.OCI_ERROR htyp t =
      .ret (some ⟨beforeNull (fill bufLen (O t c).buf)⟩) (t ++ [c]) := by
  have key : ∀ O1 : Oracle, (O1 t c).r = (O t c).r → (O1 t c).buf = (O t c).buf →
      getErr K O1 conn (fuel + 3) htyp t =
        .ret (some ⟨beforeNull (fill bufLen (O t c).buf)⟩) (t ++ [c]) := by
    intro O1 hr hb
    rw [getErr_fetch_success K O1 conn fuel htyp t c hc (by rw [hr]; exact hs), hb,
      errOfBuf_of_mem _ _ hz]
    rfl
  refine ⟨fill_length _ _, key O rfl rfl, ?_, ?_⟩
  · rw [onOCIReturn_error K hK]; exact key O rfl rfl
  · intro code
    rw [onOCIReturn_error K hK]; exact key _ rfl rfl

/-- Claim C2 for a buffer holding `ORA-01017: invalid username` followed by
nulls, fetched from the error-context handle: the error has exactly that text. -/
theorem getErr_text_before_null_witness :
    onOCIReturn ociH (failWith (bytesOf "ORA-01017: invalid username") 1017) conn0 4
        ociH.OCI_ERROR ociH.OCI_HTYPE_ERROR [] =
      .ret (some ⟨bytesOf "ORA-01017: invalid username"⟩) [Call.OCIErrorGet 102 2] := by
  have hf := fill_short bufLen (bytesOf "ORA-01017: invalid username") (by decide)
    (by decide)
  have h := (getErr_text_before_null ociH (by decide)
    (failWith (bytesOf "ORA-01017: invalid username") 1017) conn0 0 ociH.OCI_HTYPE_ERROR []
    (Call.OCIErrorGet 102 2) (by decide) (by decide) hf.1).2.2.1
  rw [h]
  have e : beforeNull (fill bufLen
      (failWith (bytesOf "ORA-01017: invalid username") 1017 []
        (Call.OCIErrorGet 102 2)).buf) = bytesOf "ORA-01017: invalid username" := by
    show (fill bufLen (bytesOf "ORA-01017: invalid username")).takeWhile _ = _
    rw [hf.2]; decide
  rw [e]; rfl

/-- Claim C3, evaluated on the code.  The diagnostic fetch reports `OCI_SUCCESS`
and stores 3072 bytes none of which is null: `getErr` does not return a
fetch-integrity error, it panics on the slice `buf[:-1]`. -/
theorem getErr_unterminated_buffer_panics :
    0 ∉ fill bufLen (failUnterminated [] (Call.OCIErrorGet 102 2)).buf ∧
    getErr ociH failUnterminated conn0 3 ociH.OCI_HTYPE_ERROR [] =
      .sliceBounds [Call.OCIErrorGet 102 2] := by
  have hz : 0 ∉ fill bufLen (failUnterminated [] (Call.OCIErrorGet 102 2)).buf := by
    apply fill_full
    · intro x hx
      have : x = 65 := List.eq_of_mem_replicate hx
      subst this; decide
    · show 3072 ≤ (List.replicate 3072 65).length
      rw [List.length_replicate]
  refine ⟨hz, ?_⟩
  rw [getErr_fetch_success ociH failUnterminated conn0 0 ociH.OCI_HTYPE_ERROR []
    (Call.OCIErrorGet 102 2) (by decide) (by decide), errOfBuf_of_not_mem _ _ hz]
  rfl

/-- Claim C4 fails in two ways.  On a connection that is already open, a login
that reports `OCI_INVALID_HANDLE` is followed by a logoff call before the two free
calls.  On a closed connection, a login that reports `OCI_ERROR` is followed by a
diagnostic fetch before the two free calls. -/
theorem logon_failure_may_log_off_and_fetch :
    logon ociH alwaysInvalid { conn0 with opened := true } 2 (bytesOf "scott") (bytesOf "tiger")
        (bytesOf "orcl") [] =
      .ret (conn0, some invalidHandleErr)
        [Call.OCILogon 100 102 101 (bytesOf "scott") (bytesOf "tiger") (bytesOf "orcl"),
         Call.OCILogoff 101 102, Call.OCIHandleFree 101 3, Call.OCIHandleFree 100 1] ∧
    logon ociH (failWith (bytesOf "ORA-01017: invalid username") 1017) conn0 5
        (bytesOf "scott") (bytesOf "tiger") (bytesOf "orcl") [] =
      .ret ({ conn0 with serv := some ⟨3, 7⟩ },
          some ⟨bytesOf "ORA-01017: invalid username"⟩)
        [Call.OCILogon 100 102 101 (bytesOf "scott") (bytesOf "tiger") (bytesOf "orcl"),
         Call.OCIErrorGet 102 2, Call.OCIHandleFree 7 3, Call.OCIHandleFree 100 1] := by
  refine ⟨by decide, ?_⟩
  have hf := fill_short bufLen (bytesOf "ORA-01017: invalid username") (by decide)
    (by decide)
  have hg : cerr ociH (failWith (bytesOf "ORA-01017: invalid username") 1017)
      { conn0 with serv := some ⟨3, 7⟩ } 5 65535
      [Call.OCILogon 100 102 101 (bytesOf "scott") (bytesOf "tiger") (bytesOf "orcl")] =
      .ret (some ⟨bytesOf "ORA-01017: invalid username"⟩)
        [Call.OCILogon 100 102 101 (bytesOf "scott") (bytesOf "tiger") (bytesOf "orcl"),
         Call.OCIErrorGet 102 2] := by
    rw [cerr_succ]
    have h16 : int16 65535 = ociH.OCI_ERROR := by decide
    rw [h16, onOCIReturn_error ociH (by decide),
      getErr_fetch_success ociH _ _ 0 ociH.OCI_HTYPE_ERROR _ (Call.OCIErrorGet 102 2)
        (by decide) (by decide)]
    show errOfBuf (fill bufLen (bytesOf "ORA-01017: invalid username")) _ = _
    rw [errOfBuf_of_mem _ _ hf.1, hf.2]
    decide
  simp only [logon, conn0]
  exact (congrArg (fun r => Res.andThen r _) hg).trans (by decide)

/-- Claim C4, amended.  On a connection whose three handles are allocated and
that is not open, for a login `c` whose status is not `OCI_SUCCESS`: whenever the
translation of the status with the error-context handle returns, it returns an
error `e1`, `logon` returns `e1` and leaves `opened == false`, and the calls issued
after the login are the diagnostic fetches of the translation, all against the
error-context handle, then the free of the service context, then the free of the
environment, with no logoff.  When the status is not `OCI_ERROR` the translation
does return, without a fetch, the error of the decision table. -/
theorem logon_failure_closes_connection (K : OCIConst) (hK : K.WF) (O : Oracle)
    (conn : connStruct) (user pass host : Bytes) (t : List Call) (v e s : ociHandle)
    (c : Call) (hv : conn.env = some v) (he : conn.err = some e) (hs : conn.serv = some s)
    (hop : conn.opened = false)
    (hc : c = Call.OCILogon v.ptr e.ptr s.ptr user pass host)
    (hst : int16 (O t c).r ≠ K.OCI_SUCCESS) :
    (∀ fuel x t1,
      cerr K O { conn with serv := some ⟨s.typ, ((O t c).out).getD s.ptr⟩ } fuel (O t c).r
        (t ++ [c]) = .ret x t1 →
      ∃ e1 l, x = some e1 ∧ t1 = t ++ [c] ++ l ∧
        (∀ d ∈ l, d = Call.OCIErrorGet e.ptr K.OCI_HTYPE_ERROR) ∧
        logon K O conn fuel user pass host t =
          .ret ({ conn with serv := some ⟨s.typ, ((O t c).out).getD s.ptr⟩, opened := false },
              some e1)
            (t ++ [c] ++ l ++
              [Call.OCIHandleFree (((O t c).out).getD s.ptr) K.OCI_HTYPE_SVCCTX,
               Call.OCIHandleFree v.ptr K.OCI_HTYPE_ENV])) ∧
    (int16 (O t c).r ≠ K.OCI_ERROR → ∀ fuel,
      logon K O conn (fuel + 2) user pass host t =
        .ret ({ conn with serv := some ⟨s.typ, ((O t c).out).getD s.ptr⟩, opened := false },
            some (if int16 (O t c).r = K.OCI_INVALID_HANDLE then invalidHandleErr
              else unknownStatusErr (int16 (O t c).r)))
          (t ++ [c,
            Call.OCIHandleFree (((O t c).out).getD s.ptr) K.OCI_HTYPE_SVCCTX,
            Call.OCIHandleFree v.ptr K.OCI_HTYPE_ENV])) := by
  subst hc
  have main : ∀ fuel x t1,
      cerr K O { conn with serv := some ⟨s.typ,
          ((O t (Call.OCILogon v.ptr e.ptr s.ptr user pass host)).out).getD s.ptr⟩ } fuel
        (O t (Call.OCILogon v.ptr e.ptr s.ptr user pass host)).r
        (t ++ [Call.OCILogon v.ptr e.ptr s.ptr user pass host]) = .ret x t1 →
      ∃ e1 l, x = some e1 ∧ t1 = t ++ [Call.OCILogon v.ptr e.ptr s.ptr user pass host] ++ l ∧
        (∀ d ∈ l, d = Call.OCIErrorGet e.ptr K.OCI_HTYPE_ERROR) ∧
        logon K O conn fuel user pass host t =
          .ret ({ conn with
                  serv := some ⟨s.typ,
                    ((O t (Call.OCILogon v.ptr e.ptr s.ptr user pass host)).out).getD s.ptr⟩,
                  opened := false }, some e1)
            (t ++ [Call.OCILogon v.ptr e.ptr s.ptr user pass host] ++ l ++
              [Call.OCIHandleFree
                (((O t (Call.OCILogon v.ptr e.ptr s.ptr user pass host)).out).getD s.ptr)
                K.OCI_HTYPE_SVCCTX,
               Call.OCIHandleFree v.ptr K.OCI_HTYPE_ENV]) := by
    intro fuel x t1 htr
    obtain ⟨e1, l, hx, hl, hf, hlog⟩ :=
      logon_failure K O conn fuel user pass host t v e s hv he hs x t1 hst htr
    refine ⟨e1, l, hx, hl, hf, ?_⟩
    rw [hlog, hop, hl]
    simp
  refine ⟨main, ?_⟩
  intro hne fuel
  by_cases hi : int16 (O t (Call.OCILogon v.ptr e.ptr s.ptr user pass host)).r =
      K.OCI_INVALID_HANDLE
  · have htr : cerr K O { conn with serv := some ⟨s.typ,
          ((O t (Call.OCILogon v.ptr e.ptr s.ptr user pass host)).out).getD s.ptr⟩ } (fuel + 2)
        (O t (Call.OCILogon v.ptr e.ptr s.ptr user pass host)).r
        (t ++ [Call.OCILogon v.ptr e.ptr s.ptr user pass host]) =
        .ret (some invalidHandleErr) (t ++ [Call.OCILogon v.ptr e.ptr s.ptr user pass host]) := by
      rw [cerr_succ, hi, onOCIReturn_invalid K hK]
    obtain ⟨e1, l, hx, hl, _, hlog⟩ := main _ _ _ htr
    have hl0 : l = [] := by simpa using hl
    subst hl0
    rw [hlog, if_pos hi, ← Option.some.inj hx]
    simp
  · have htr : cerr K O { conn with serv := some ⟨s.typ,
          ((O t (Call.OCILogon v.ptr e.ptr s.ptr user pass host)).out).getD s.ptr⟩ } (fuel + 2)
        (O t (Call.OCILogon v.ptr e.ptr s.ptr user pass host)).r
        (t ++ [Call.OCILogon v.ptr e.ptr s.ptr user pass host]) =
        .ret (some (unknownStatusErr
          (int16 (O t (Call.OCILogon v.ptr e.ptr s.ptr user pass host)).r)))
          (t ++ [Call.OCILogon v.ptr e.ptr s.ptr user pass host]) := by
      rw [cerr_succ, onOCIReturn_other K O _ _ _ _ _ hst hne hi]
    obtain ⟨e1, l, hx, hl, _, hlog⟩ := main _ _ _ htr
    have hl0 : l = [] := by simpa using hl
    subst hl0
    rw [hlog, if_neg hi, ← Option.some.inj hx]
    simp

/-- Claim C4, amended, for a login that reports `OCI_INVALID_HANDLE` on the
connection `conn0`. -/
theorem logon_failure_closes_connection_witness :
    logon ociH alwaysInvalid conn0 2 (bytesOf "scott") (bytesOf "tiger") (bytesOf "orcl") [] =
      .ret (conn0, some invalidHandleErr)
        [Call.OCILogon 100 102 101 (bytesOf "scott") (bytesOf "tiger") (bytesOf "orcl"),
         Call.OCIHandleFree 101 3, Call.OCIHandleFree 100 1] :=
  (logon_failure_closes_connection ociH (by decide) alwaysInvalid conn0 (bytesOf "scott")
    (bytesOf "tiger") (bytesOf "orcl") [] ⟨1, 100⟩ ⟨2, 102⟩ ⟨3, 101⟩
    (Call.OCILogon 100 102 101 (bytesOf "scott") (bytesOf "tiger") (bytesOf "orcl"))
    rfl rfl rfl rfl rfl (by decide)).2 (by decide) 0

/-- Claim C5.  On a connection that `newConnection` returned, a login whose status
is `OCI_SUCCESS` issues the login call alone (no free, no logoff) and leaves
`opened == true`.  On a connection whose three handles are allocated, `Close`
issues one logoff call exactly when `opened` was true, then the free of the
service context, then the free of the environment, and no other call; it leaves
`opened == false` and returns no error.  `Close` does not read what the foreign
layer answers, so this holds whatever statuses the calls report. -/
theorem logon_success_opens_and_Close_frees (K : OCIConst) (O : Oracle) (fuel fuel2 : Nat)
    (t : List Call) :
    (∀ conn t1 user pass host, newConnection K O fuel t = .ret (some conn, none) t1 →
      ∃ c, logonCall conn user pass host = some c ∧
        (int16 (O t1 c).r = K.OCI_SUCCESS →
          ∃ conn1, logon K O conn (fuel2 + 2) user pass host t1 = .ret (conn1, none) (t1 ++ [c]) ∧
            conn1.opened = true)) ∧
    (∀ conn v s e, conn.env = some v → conn.serv = some s → conn.err = some e →
      Close K conn t = .ret ({ conn with opened := false }, none)
        (t ++ (if conn.opened then [Call.OCILogoff s.ptr e.ptr] else []) ++
          [Call.OCIHandleFree s.ptr K.OCI_HTYPE_SVCCTX,
           Call.OCIHandleFree v.ptr K.OCI_HTYPE_ENV])) := by
  refine ⟨?_, ?_⟩
  · intro conn t1 user pass host h
    obtain ⟨_, _, _, v, s, e, hv, hs, he⟩ := newConnection_ret_some K O fuel t conn none t1 h
    refine ⟨Call.OCILogon v.ptr e.ptr s.ptr user pass host, by simp [logonCall, hv, hs, he], ?_⟩
    intro hst
    exact ⟨_, logon_success K O conn fuel2 user pass host t1 v e s hv he hs hst, rfl⟩
  · intro conn v s e hv hs he
    exact Close_allocated K conn t v s e hv hs he

/-- Claim C5 on the foreign layer `allSucceed`: the login with `scott`, `tiger`,
`orcl` after a successful construction, and `Close` on the open connection. -/
theorem logon_success_opens_and_Close_frees_witness :
    (∃ conn1, logon ociH allSucceed conn0 2 (bytesOf "scott") (bytesOf "tiger") (bytesOf "orcl")
        [Call.OCIEnvCreate 0, Call.OCIHandleAlloc 100 3, Call.OCIHandleAlloc 100 2] =
      .ret (conn1, none)
        [Call.OCIEnvCreate 0, Call.OCIHandleAlloc 100 3, Call.OCIHandleAlloc 100 2,
         Call.OCILogon 100 102 101 (bytesOf "scott") (bytesOf "tiger") (bytesOf "orcl")] ∧
      conn1.opened = true) ∧
    Close ociH { conn0 with opened := true } [] =
      .ret (conn0, none)
        [Call.OCILogoff 101 102, Call.OCIHandleFree 101 3, Call.OCIHandleFree 100 1] := by
  have h := logon_success_opens_and_Close_frees ociH allSucceed 2 0 []
  refine ⟨?_, ?_⟩
  · obtain ⟨c, hc, hl⟩ := h.1 conn0
      [Call.OCIEnvCreate 0, Call.OCIHandleAlloc 100 3, Call.OCIHandleAlloc 100 2]
      (bytesOf "scott") (bytesOf "tiger") (bytesOf "orcl") (by decide)
    have hc' : c = Call.OCILogon 100 102 101 (bytesOf "scott") (bytesOf "tiger")
        (bytesOf "orcl") := by
      have : logonCall conn0 (bytesOf "scott") (bytesOf "tiger") (bytesOf "orcl") =
          some (Call.OCILogon 100 102 101 (bytesOf "scott") (bytesOf "tiger")
            (bytesOf "orcl")) := by decide
      rw [this] at hc
      exact (Option.some.inj hc).symm
    subst hc'
    exact hl (by decide)
  · exact h.2 { conn0 with opened := true } ⟨1, 100⟩ ⟨3, 101⟩ ⟨2, 102⟩ rfl rfl rfl

/-- Claim C6 fails.  `Close` on the open connection `conn0` logs off and frees the
two handles; a second `Close` right after it issues the two free calls again, with
the same addresses. -/
theorem Close_twice_frees_again :
    Close ociH { conn0 with opened := true } [] =
      .ret (conn0, none)
        [Call.OCILogoff 101 102, Call.OCIHandleFree 101 3, Call.OCIHandleFree 100 1] ∧
    Close ociH conn0
        [Call.OCILogoff 101 102, Call.OCIHandleFree 101 3, Call.OCIHandleFree 100 1] =
      .ret (conn0, none)
        [Call.OCILogoff 101 102, Call.OCIHandleFree 101 3, Call.OCIHandleFree 100 1,
         Call.OCIHandleFree 101 3, Call.OCIHandleFree 100 1] := by
  decide

/-- Claim C6, amended.  On a connection whose three handles are allocated, `Close`
returns a connection that still holds the same environment and service-context
handles, and a second `Close` right after it issues no logoff call but issues the
two free calls again, service context first and environment second. -/
theorem Close_twice (K : OCIConst) (conn : connStruct) (t : List Call) (v s e : ociHandle)
    (hv : conn.env = some v) (hs : conn.serv = some s) (he : conn.err = some e) :
    ∃ conn1 t1, Close K conn t = .ret (conn1, none) t1 ∧
      conn1.env = some v ∧ conn1.serv = some s ∧ conn1.opened = false ∧
      Close K conn1 t1 = .ret (conn1, none)
        (t1 ++ [Call.OCIHandleFree s.ptr K.OCI_HTYPE_SVCCTX,
                Call.OCIHandleFree v.ptr K.OCI_HTYPE_ENV]) := by
  refine ⟨_, _, Close_allocated K conn t v s e hv hs he, hv, hs, rfl, ?_⟩
  rw [Close_allocated K { conn with opened := false } _ v s e hv hs he]
  simp

/-- Claim C6, amended, on the open connection `conn0`. -/
theorem Close_twice_witness :
    ∃ conn1 t1, Close ociH { conn0 with opened := true } [] = .ret (conn1, none) t1 ∧
      conn1.env = some ⟨1, 100⟩ ∧ conn1.serv = some ⟨3, 101⟩ ∧ conn1.opened = false ∧
      Close ociH conn1 t1 = .ret (conn1, none)
        (t1 ++ [Call.OCIHandleFree 101 3, Call.OCIHandleFree 100 1]) :=
  Close_twice ociH { conn0 with opened := true } [] ⟨1, 100⟩ ⟨3, 101⟩ ⟨2, 102⟩ rfl rfl rfl

/-- Claim C7, evaluated on the code.  At the first step whose status is not
`OCI_SUCCESS`, `newConnection` does not always return an error.  When environment
creation reports `OCI_ERROR` and the diagnostic fetch stores 3072 bytes without a
null byte, it panics on the slice of the buffer.  When environment creation
succeeds, the allocation of the service-context handle reports `OCI_ERROR` and so
does the diagnostic fetch, it panics on the nil error-context handle.  In both
runs no creation or allocation call follows the failing step. -/
theorem newConnection_failure_without_error (fuel : Nat) :
    newConnection ociH failUnterminated (fuel + 5) [] =
      .sliceBounds [Call.OCIEnvCreate 0, Call.OCIErrorGet 7 1] ∧
    newConnection ociH createThenError (fuel + 6) [] =
      .nilDeref [Call.OCIEnvCreate 0, Call.OCIHandleAlloc 100 3, Call.OCIErrorGet 100 1] := by
  have hK : ociH.WF := by decide
  have h16 : int16 65535 = ociH.OCI_ERROR := by decide
  refine ⟨?_, ?_⟩
  · have hz : 0 ∉ fill bufLen
        (failUnterminated ([] ++ [Call.OCIEnvCreate ociH.OCI_DEFAULT])
          (Call.OCIErrorGet 7 ociH.OCI_HTYPE_ENV)).buf := by
      apply fill_full
      · intro x hx
        have : x = 65 := List.eq_of_mem_replicate hx
        subst this; decide
      · show 3072 ≤ (List.replicate 3072 65).length
        rw [List.length_replicate]
    rw [newConnection_step1 ociH failUnterminated _ [] (by decide)]
    have hr : (failUnterminated [] (Call.OCIEnvCreate ociH.OCI_DEFAULT)).r = 65535 := rfl
    have ho : ((failUnterminated [] (Call.OCIEnvCreate ociH.OCI_DEFAULT)).out).getD 0 = 7 := rfl
    rw [hr, ho, envErr_succ, h16, onOCIReturn_error ociH hK,
      getErr_fetch_success ociH failUnterminated _ fuel ociH.OCI_HTYPE_ENV _
        (Call.OCIErrorGet 7 ociH.OCI_HTYPE_ENV) (by decide) (by decide),
      errOfBuf_of_not_mem _ _ hz]
    rfl
  · have e6 : fuel + 6 = (fuel + 4) + 2 := rfl
    rw [e6, newConnection_step2 ociH createThenError (fuel + 4) []
      (Call.OCIEnvCreate 0) (Call.OCIHandleAlloc 100 3) ⟨1, 100⟩ rfl rfl rfl
      (by decide) (by decide)]
    have hr : (createThenError ([] ++ [Call.OCIEnvCreate 0]) (Call.OCIHandleAlloc 100 3)).r =
        65535 := rfl
    rw [hr, envErr_succ, h16, onOCIReturn_error ociH hK,
      getErr_step ociH createThenError _ _ ociH.OCI_HTYPE_ENV _ (Call.OCIErrorGet 100 1)
        (by decide)]
    have hr2 : (createThenError ([] ++ [Call.OCIEnvCreate 0, Call.OCIHandleAlloc 100 3])
        (Call.OCIErrorGet 100 1)).r = 65535 := rfl
    rw [hr2, cerr_succ, h16, onOCIReturn_error ociH hK,
      getErr_nil ociH createThenError _ _ ociH.OCI_HTYPE_ERROR _ (by decide)]
    rfl

/-- Claim C8 fails.  On the connection `conn0`, whose error-context handle exists
(address 102), a statement-handle allocation that reports `OCI_ERROR` is followed
by a diagnostic fetch against the environment handle (address 100) with the type
`OCI_HTYPE_ENV`, and the error carries the text of that fetch. -/
theorem newStatement_fetches_from_environment :
    newStatement ociH (failWith (bytesOf "ORA-01000: maximum open cursors exceeded") 1000)
        conn0 5 [] =
      .ret ({ tx := none, ociHandle := none },
          some ⟨bytesOf "ORA-01000: maximum open cursors exceeded"⟩)
        [Call.OCIHandleAlloc 100 4, Call.OCIErrorGet 100 1] := by
  have hf := fill_short bufLen (bytesOf "ORA-01000: maximum open cursors exceeded")
    (by decide) (by decide)
  have hg : envErr ociH (failWith (bytesOf "ORA-01000: maximum open cursors exceeded") 1000)
      conn0 5 65535 [Call.OCIHandleAlloc 100 4] =
      .ret (some ⟨bytesOf "ORA-01000: maximum open cursors exceeded"⟩)
        [Call.OCIHandleAlloc 100 4, Call.OCIErrorGet 100 1] := by
    rw [envErr_succ]
    have h16 : int16 65535 = ociH.OCI_ERROR := by decide
    rw [h16, onOCIReturn_error ociH (by decide),
      getErr_fetch_success ociH _ _ 0 ociH.OCI_HTYPE_ENV _ (Call.OCIErrorGet 100 1)
        (by decide) (by decide)]
    show errOfBuf (fill bufLen (bytesOf "ORA-01000: maximum open cursors exceeded")) _ = _
    rw [errOfBuf_of_mem _ _ hf.1, hf.2]
    decide
  simp only [newStatement, alloc, conn0]
  exact (congrArg (fun r => (Res.andThen r _).andThen _) hg).trans (by decide)

/-- Claim C8, amended.  When the allocation `a` of the statement handle requested
by `newStatement` reports `OCI_ERROR`, the first diagnostic fetch is `c`, issued
against the environment handle with the type `OCI_HTYPE_ENV`: when `c` reports
`OCI_SUCCESS` and stores a null-terminated text, `newStatement` returns the error
with exactly that text and a statement without handle; and whenever `newStatement`
returns, the calls it issued are `a`, then `c`, then diagnostic fetches only. -/
theorem newStatement_alloc_error_uses_environment (K : OCIConst) (hK : K.WF) (O : Oracle)
    (conn : connStruct) (t : List Call) (v : ociHandle) (a c : Call)
    (hv : conn.env = some v)
    (ha : a = Call.OCIHandleAlloc v.ptr K.OCI_HTYPE_STMT)
    (hc : c = Call.OCIErrorGet v.ptr K.OCI_HTYPE_ENV)
    (hst : int16 (O t a).r = K.OCI_ERROR) :
    (int16 (O (t ++ [a]) c).r = K.OCI_SUCCESS → 0 ∈ fill bufLen (O (t ++ [a]) c).buf →
      ∀ fuel, newStatement K O conn (fuel + 5) t =
        .ret ({ tx := conn.tx, ociHandle := none },
            some ⟨beforeNull (fill bufLen (O (t ++ [a]) c).buf)⟩) (t ++ [a, c])) ∧
    (∀ fuel x t1, newStatement K O conn fuel t = .ret x t1 →
      ∃ l, t1 = t ++ [a, c] ++ l ∧ ∀ d ∈ l, isFetch d = true) := by
  subst ha hc
  have hfc : fetchCall K conn K.OCI_HTYPE_ENV =
      some (Call.OCIErrorGet v.ptr K.OCI_HTYPE_ENV) := by
    simp [fetchCall, hK.2.2.2, hv]
  have hne : int16 (O t (Call.OCIHandleAlloc v.ptr K.OCI_HTYPE_STMT)).r ≠ K.OCI_SUCCESS := by
    rw [hst]; exact Ne.symm hK.1
  refine ⟨?_, ?_⟩
  · intro hs hz fuel
    simp only [newStatement]
    rw [alloc_failure K O conn _ K.OCI_HTYPE_STMT t v hv hne, envErr_succ, hst,
      onOCIReturn_error K hK,
      getErr_fetch_success K O conn fuel K.OCI_HTYPE_ENV _ _ hfc hs, errOfBuf_of_mem _ _ hz]
    simp [Res.andThen, beforeNull]
  · intro fuel x t1 h
    simp only [newStatement] at h
    rw [alloc_failure K O conn _ K.OCI_HTYPE_STMT t v hv hne] at h
    cases fuel with
    | zero => simp [envErr, Res.andThen] at h
    | succ n =>
      rw [envErr_succ, hst] at h
      cases n with
      | zero => simp [onOCIReturn, Res.andThen] at h
      | succ m =>
        rw [onOCIReturn_error K hK] at h
        cases m with
        | zero => simp [getErr, Res.andThen] at h
        | succ k =>
          rw [getErr_step K O conn k K.OCI_HTYPE_ENV _ _ hfc] at h
          cases hr : cerr K O conn k
              (O (t ++ [Call.OCIHandleAlloc v.ptr K.OCI_HTYPE_STMT])
                (Call.OCIErrorGet v.ptr K.OCI_HTYPE_ENV)).r
              (t ++ [Call.OCIHandleAlloc v.ptr K.OCI_HTYPE_STMT] ++
                [Call.OCIErrorGet v.ptr K.OCI_HTYPE_ENV]) with
          | ret y t2 =>
            obtain ⟨⟨l, hl, hf⟩, _⟩ := (translate_ret K O conn k).1 _ _ _ _ hr
            have hfl : ∀ d ∈ l, isFetch d = true :=
              fun d hd => isFetch_of_fetchCall K conn _ d (hf d hd)
            rw [hr] at h
            simp only [Res.andThen] at h
            cases y with
            | some e1 =>
              simp at h
              exact ⟨l, by rw [← h.2, hl]; simp, hfl⟩
            | none =>
              simp only at h
              cases hb : errOfBuf (fill bufLen
                  (O (t ++ [Call.OCIHandleAlloc v.ptr K.OCI_HTYPE_STMT])
                    (Call.OCIErrorGet v.ptr K.OCI_HTYPE_ENV)).buf) t2 with
              | ret z t3 =>
                obtain ⟨_, ht3⟩ := errOfBuf_ret _ _ _ _ hb
                rw [hb] at h
                simp at h
                exact ⟨l, by rw [← h.2, ht3, hl]; simp, hfl⟩
              | nilDeref _ => rw [hb] at h; simp at h
              | sliceBounds _ => rw [hb] at h; simp at h
              | outOfFuel => rw [hb] at h; simp at h
          | nilDeref _ => rw [hr] at h; simp [Res.andThen] at h
          | sliceBounds _ => rw [hr] at h; simp [Res.andThen] at h
          | outOfFuel => rw [hr] at h; simp [Res.andThen] at h

/-- Claim C8, amended, on the connection `conn0`. -/
theorem newStatement_alloc_error_uses_environment_witness :
    newStatement ociH (failWith (bytesOf "ORA-01000: maximum open cursors exceeded") 1000)
        conn0 5 [] =
      .ret ({ tx := none, ociHandle := none },
          some ⟨beforeNull (fill bufLen (bytesOf "ORA-01000: maximum open cursors exceeded"))⟩)
        [Call.OCIHandleAlloc 100 4, Call.OCIErrorGet 100 1] :=
  (newStatement_alloc_error_uses_environment ociH (by decide)
    (failWith (bytesOf "ORA-01000: maximum open cursors exceeded") 1000) conn0 [] ⟨1, 100⟩
    (Call.OCIHandleAlloc 100 4) (Call.OCIErrorGet 100 1) rfl rfl rfl (by decide)).1
    (by decide)
    (fill_short bufLen (bytesOf "ORA-01000: maximum open cursors exceeded") (by decide)
      (by decide)).1 0

/-- Claim C9 fails.  On a foreign layer that answers every diagnostic fetch with
`OCI_ERROR`, the translation of `OCI_ERROR` ends with no amount of fuel: each
fetch is followed by another one. -/
theorem translation_never_ends_on_alwaysError :
    ¬ ∃ fuel, onOCIReturn ociH alwaysError conn0 fuel ociH.OCI_ERROR ociH.OCI_HTYPE_ERROR []
        ≠ .outOfFuel := by
  rintro ⟨fuel, h⟩
  exact h (alwaysError_loops fuel []).2.1

/-- Claim C9, amended.  In a translation of `OCI_ERROR` for a category whose
handle is allocated, the status of the diagnostic fetch `c` goes through the
decision table before the buffer is read: for `OCI_INVALID_HANDLE` the result is
the invalid-handle error, for a status that is none of the three constants it is
the unknown-status error carrying that status, in both cases without any text of
the buffer; the buffer is read when the status is `OCI_SUCCESS`.  When the
foreign layer answers `k` fetches with `OCI_ERROR` and the next one with another
status (storing a null byte if that status is `OCI_SUCCESS`), and the handles
these fetches read are allocated, the translation returns an error after `k + 1`
fetches.  When the error-context handle is allocated and the foreign layer
answers every fetch with `OCI_ERROR`, the translation ends with no amount of
fuel. -/
theorem fetch_status_decision_table (K : OCIConst) (hK : K.WF) (O : Oracle)
    (conn : connStruct) (fuel : Nat) (htyp : Int) (t : List Call) (c : Call)
    (hc : fetchCall K conn htyp = some c) :
    (int16 (O t c).r = K.OCI_INVALID_HANDLE →
      onOCIReturn K O conn (fuel + 4) K.OCI_ERROR htyp t =
        .ret (some invalidHandleErr) (t ++ [c])) ∧
    (int16 (O t c).r ≠ K.OCI_SUCCESS → int16 (O t c).r ≠ K.OCI_ERROR →
      int16 (O t c).r ≠ K.OCI_INVALID_HANDLE →
      onOCIReturn K O conn (fuel + 4) K.OCI_ERROR htyp t =
        .ret (some (unknownStatusErr (int16 (O t c).r))) (t ++ [c])) ∧
    (int16 (O t c).r = K.OCI_SUCCESS →
      onOCIReturn K O conn (fuel + 4) K.OCI_ERROR htyp t =
        errOfBuf (fill bufLen (O t c).buf) (t ++ [c])) ∧
    (∀ k, stopsAfter K O conn k htyp t = true →
      ∃ e l, l.length = k + 1 ∧ (∀ d ∈ l, isFetch d = true) ∧
        onOCIReturn K O conn (3 * k + 4 + fuel) K.OCI_ERROR htyp t = .ret (some e) (t ++ l)) ∧
    (∀ e, conn.err = some e →
      (∀ t1 d, isFetch d = true → int16 (O t1 d).r = K.OCI_ERROR) →
      ∀ n, onOCIReturn K O conn n K.OCI_ERROR htyp t = .outOfFuel) := by
  refine ⟨?_, ?_, ?_, ?_, ?_⟩
  · intro h
    rw [onOCIReturn_error K hK]; exact getErr_fetch_invalid K hK O conn fuel htyp t c hc h
  · intro h1 h2 h3
    rw [onOCIReturn_error K hK]; exact getErr_fetch_other K O conn fuel htyp t c hc h1 h2 h3
  · intro h
    rw [onOCIReturn_error K hK]; exact getErr_fetch_success K O conn fuel htyp t c hc h
  · intro k hk
    obtain ⟨e, l, hl, hf, hg⟩ := getErr_stops K hK O conn fuel k htyp t hk
    refine ⟨e, l, hl, hf, ?_⟩
    have e3 : 3 * k + 4 + fuel = (3 * k + 3 + fuel) + 1 := by omega
    rw [e3, onOCIReturn_error K hK]; exact hg
  · intro e he hO n
    exact error_loop_any K hK O conn e htyp c he hc hO n t

/-- Claim C9, amended, on a foreign layer that answers two fetches with
`OCI_ERROR` and the third with `OCI_INVALID_HANDLE`. -/
theorem fetch_status_decision_table_witness :
    stopsAfter ociH errorThenInvalid conn0 2 ociH.OCI_HTYPE_ENV [] = true ∧
    ∃ e l, l.length = 2 + 1 ∧ (∀ d ∈ l, isFetch d = true) ∧
      onOCIReturn ociH errorThenInvalid conn0 (3 * 2 + 4 + 0) ociH.OCI_ERROR
        ociH.OCI_HTYPE_ENV [] = .ret (some e) ([] ++ l) :=
  ⟨by decide,
    (fetch_status_decision_table ociH (by decide) errorThenInvalid conn0 0 ociH.OCI_HTYPE_ENV []
      (Call.OCIErrorGet 100 1) (by decide)).2.2.2.1 2 (by decide)⟩

/-- Claim C10, evaluated on the code.  Environment creation reports `OCI_ERROR`
and so does the diagnostic fetch against the environment handle: `getErr`
translates the status of the fetch with `cerr`, which reads the error-context
handle, still nil, and `newConnection` ends by a nil pointer dereference. -/
theorem newConnection_dereferences_nil_error_context (fuel : Nat) :
    newConnection ociH alwaysError (fuel + 6) [] =
      .nilDeref [Call.OCIEnvCreate 0, Call.OCIErrorGet 7 1] := by
  have hK : ociH.WF := by decide
  simp only [newConnection]
  have hr : ∀ t c, (alwaysError t c).r = 65535 := fun _ _ => rfl
  have ho : ∀ t c, (alwaysError t c).out = some 7 := fun _ _ => rfl
  rw [hr, ho, envErr_succ]
  have h16 : int16 65535 = ociH.OCI_ERROR := by decide
  rw [h16, onOCIReturn_error ociH hK,
    getErr_step ociH alwaysError _ _ ociH.OCI_HTYPE_ENV _ (Call.OCIErrorGet 7 1) (by decide),
    hr, cerr_succ, h16, onOCIReturn_error ociH hK,
    getErr_nil ociH alwaysError _ _ ociH.OCI_HTYPE_ERROR _ (by decide)]
  rfl

end Ora
